import Mathlib

/-!
PlanetSim: a verification development over `planetsim.c`.

The C program is embedded shallowly, in three readings of its `double`s.

* Exact arithmetic (`step`, `checkEdges`, `FillBody`, ...): a `double` is an
  element of a linear ordered field `α` with a floor function, the libm call
  `sqrt` is a parameter of the functions that call it, and `pow(x, 2)` is the
  square.  Rounding, infinities and NaN are outside this reading.
* Explicit failure (`gravityFinite`, `FillBodyChecked`): the same arithmetic,
  with a division by zero and a conversion to `int` out of range returning
  `none`.
* Binary64 (`stepDouble`, `stepDivisorsDouble`): every operation rounds its exact
  result to the nearest double, ties to even, subnormals included.

A C array of `TRAJ_LENGTH` bodies is a `List`, counted `for` loops are folds
over the index range, and the SDL surface is the log of the `SDL_FillRect` calls
made on it.
-/

set_option autoImplicit false

namespace PlanetSim

/-! ## Constants (`#define`s) -/

section Defs

variable {α : Type} [LinearOrderedField α] [FloorRing α]

/-- `#define SCREEN_WIDTH 900`, used as a `double` in `checkEdges`. -/
def SCREEN_WIDTH : α := 900

/-- `#define SCREEN_HEIGHT 600`, used as a `double` in `checkEdges`. -/
def SCREEN_HEIGHT : α := 600

/-- `#define COLOUR_LIGHT 0xC7F0D8`. -/
def COLOUR_LIGHT : Nat := 0xC7F0D8

/-- `#define COLOUR_DARK 0x43523D`. -/
def COLOUR_DARK : Nat := 0x43523D

/-- `#define DAMPENING 1.001`. -/
def DAMPENING : α := 1001 / 1000

/-- `#define DELTA_T 0.1`. -/
def DELTA_T : α := 1 / 10

/-- `#define TRAJ_LENGTH 300`. -/
def TRAJ_LENGTH : Nat := 300

/-- `#define TRAJ_WIDTH 2`, cast to `double` where it is used. -/
def TRAJ_WIDTH : α := 2

/-! ## Data model -/

/-- `typedef struct Body { double x, y, radius; double v_x, v_y; double mass; }`. -/
structure Body (α : Type) where
  x : α
  y : α
  radius : α
  v_x : α
  v_y : α
  mass : α
deriving DecidableEq, Repr

instance : Inhabited (Body α) := ⟨⟨0, 0, 0, 0, 0, 0⟩⟩

/-- `SDL_Rect`: integer position and size. -/
structure SDL_Rect where
  x : Int
  y : Int
  w : Int
  h : Int
deriving DecidableEq, Repr

/-- The drawing surface, as the log of `SDL_FillRect` calls (rectangle and
colour), oldest first. -/
abbrev Surface := List (SDL_Rect × Nat)

/-- `SDL_FillRect(surface, &rect, colour)`. -/
def SDL_FillRect (surface : Surface) (rect : SDL_Rect) (colour : Nat) : Surface :=
  surface ++ [(rect, colour)]

/-- Conversion of a `double` to `int`: truncation toward zero. -/
def toInt (x : α) : Int := if 0 ≤ x then ⌊x⌋ else ⌈x⌉

/-- `pow(x, n)` of libm at a natural exponent. -/
def pow (x : α) (n : Nat) : α := x ^ n

/-! ## Loops -/

/-- `for (int32_t i = lo; i < hi; i++) s = f(i, s);` -/
def forRange {σ : Type} (lo hi : Nat) (f : Nat → σ → σ) (s : σ) : σ :=
  (List.range' lo (hi - lo)).foldl (fun s i => f i s) s

/-- `for (double x = lo; x < high; x++) s = f(x, s);` -/
def forDouble {α : Type} [LinearOrderedField α] [FloorRing α] {σ : Type}
    (high : α) (f : α → σ → σ) (x : α) (s : σ) : σ :=
  if x < high then forDouble high f (x + 1) (f x s) else s
termination_by (⌈high - x⌉).toNat
decreasing_by
  have h : 0 < ⌈high - x⌉ := Int.ceil_pos.mpr (sub_pos.mpr ‹x < high›)
  have h1 : high - (x + 1) = high - x - 1 := by ring
  rw [h1, Int.ceil_sub_one]
  omega

/-! ## Rendering -/

/-- `FillBody` (lines 28-47): scan the bounding box in unit steps from its
lower corner and fill the sample points strictly inside the circle. -/
def FillBody (surface : Surface) (body : Body α) (colour : Nat) : Surface :=
  let low_x := body.x - body.radius
  let low_y := body.y - body.radius
  let high_x := body.x + body.radius
  let high_y := body.y + body.radius
  let radsq := body.radius * body.radius
  forDouble high_x (fun x surface =>
    forDouble high_y (fun y surface =>
      let x_off := x - body.x
      let y_off := y - body.y
      let center_dist_sq := x_off * x_off + y_off * y_off
      if center_dist_sq < radsq then
        let pixel : SDL_Rect := ⟨toInt x, toInt y, 1, 1⟩
        SDL_FillRect surface pixel colour
      else surface) low_y surface) low_x surface

/-! ## Physics -/

/-- `checkEdges` (lines 49-69): four sequential tests, right, bottom, top,
left, each reading the fields as left by the tests before it. -/
def checkEdges (body : Body α) : Body α :=
  let body := if body.x + body.radius > SCREEN_WIDTH then
      { body with x := SCREEN_WIDTH - body.radius, v_x := -body.v_x * DAMPENING }
    else body
  let body := if body.y + body.radius > SCREEN_HEIGHT then
      { body with y := SCREEN_HEIGHT - body.radius, v_y := -body.v_y * DAMPENING }
    else body
  let body := if body.y - body.radius < 0 then
      { body with y := body.radius, v_y := -body.v_y * DAMPENING }
    else body
  let body := if body.x - body.radius < 0 then
      { body with x := body.radius, v_x := -body.v_x * DAMPENING }
    else body
  body

/-- Lines 73-74 (and 76-77 for the second body): the position advance. -/
def advance (body : Body α) : Body α :=
  { body with x := body.x + body.v_x * DELTA_T, y := body.y + body.v_y * DELTA_T }

/-- Line 79, on the advanced bodies: the centre distance. -/
def distance (sqrt : α → α) (body body2 : Body α) : α :=
  sqrt (pow (body.x - body2.x) 2 + pow (body.y - body2.y) 2)

/-- Lines 82-85, on the advanced bodies: the scalar force with its clamp. -/
def grav_f (sqrt : α → α) (body body2 : Body α) : α :=
  let distance := distance sqrt body body2
  let grav_f := 100 / pow distance 2
  if distance ≤ body.radius + body2.radius then
    100 / pow (body.radius + body2.radius) 2
  else grav_f

/-- Lines 79-87, on the advanced bodies: the gravity vector `(bx, by)`. -/
def gravity (sqrt : α → α) (body body2 : Body α) : α × α :=
  let distance := distance sqrt body body2
  let nbx := (body2.x - body.x) / distance
  let nby := (body2.y - body.y) / distance
  let grav_f := grav_f sqrt body body2
  let bx := grav_f * nbx
  let by_ := grav_f * nby
  (bx, by_)

/-- Lines 73-92 of `step`: everything before the two `checkEdges` calls. -/
def stepGravity (sqrt : α → α) (body body2 : Body α) : Body α × Body α :=
  let body := advance body
  let body2 := advance body2
  let g := gravity sqrt body body2
  let bx := g.1
  let by_ := g.2
  let body := { body with v_x := body.v_x + bx * body2.mass,
                          v_y := body.v_y + by_ * body2.mass }
  let body2 := { body2 with v_x := body2.v_x + -bx * body.mass,
                            v_y := body2.v_y + -by_ * body.mass }
  (body, body2)

/-- `step` (lines 71-96). -/
def step (sqrt : α → α) (body body2 : Body α) : Body α × Body α :=
  let p := stepGravity sqrt body body2
  (checkEdges p.1, checkEdges p.2)

/-- The divisors of the divisions `step` evaluates, in evaluation order:
`distance` twice (lines 80, 81), `pow(distance, 2)` (line 82) and, in the
clamp branch, `pow(radius + radius2, 2)` (line 85). -/
def stepDivisors (sqrt : α → α) (body body2 : Body α) : List α :=
  let body := advance body
  let body2 := advance body2
  let distance := distance sqrt body body2
  [distance, distance, pow distance 2] ++
    (if distance ≤ body.radius + body2.radius then
      [pow (body.radius + body2.radius) 2] else [])

/-- The contract of libm `sqrt` in exact arithmetic: on a non-negative
argument it returns the non-negative square root. -/
def IsSqrt (sqrt : α → α) : Prop := ∀ x, 0 ≤ x → 0 ≤ sqrt x ∧ sqrt x * sqrt x = x

/-- None of the four tests of `checkEdges` (lines 50, 55, 60, 65) holds of the
body. -/
def noBounce (body : Body α) : Prop :=
  ¬ (body.x + body.radius > SCREEN_WIDTH) ∧ ¬ (body.y + body.radius > SCREEN_HEIGHT) ∧
    ¬ (body.y - body.radius < 0) ∧ ¬ (body.x - body.radius < 0)

instance (body : Body α) : Decidable (noBounce body) := by
  unfold noBounce; infer_instance

/-- The first body of the concrete scenario: radius, vertical velocity and mass
of `main`'s first body, at `(100, 100)` with horizontal velocity 5. -/
def scenarioA : Body α := ⟨100, 100, 18, 5, 25, 100⟩

/-- The second body of the concrete scenario: radius, vertical velocity and
mass of `main`'s second body, at `(300, 300)` with horizontal velocity 5. -/
def scenarioB : Body α := ⟨300, 300, 8, 5, -25, 10⟩

/-- Line 102 on one entry: `trajectory[i].radius = (double) TRAJ_WIDTH`. -/
def setTrajWidth (entry : Body α) : Body α := { entry with radius := TRAJ_WIDTH }

/-- `FillTrajectory` (lines 98-105): returns the surface and the array, which
the loop writes through the pointer it was given. -/
def FillTrajectory (surface : Surface) (trajectory : List (Body α)) :
    Surface × List (Body α) :=
  forRange 0 TRAJ_LENGTH (fun i (s : Surface × List (Body α)) =>
    let trajectory := s.2.set i (setTrajWidth (s.2.getD i default))
    (FillBody s.1 (trajectory.getD i default) COLOUR_DARK, trajectory))
    (surface, trajectory)

/-- `UpdateTrajectory` (lines 107-118).  The local array `traj_shifted` is not
initialised in the source; `uninit` is the content it starts with. -/
def UpdateTrajectory (uninit : Nat → Body α) (trajectory : List (Body α))
    (body : Body α) : List (Body α) :=
  let traj_shifted := (List.range TRAJ_LENGTH).map uninit
  let traj_shifted := forRange 1 TRAJ_LENGTH
    (fun i traj_shifted => traj_shifted.set (i - 1) (trajectory.getD i default))
    traj_shifted
  let trajectory := forRange 0 TRAJ_LENGTH
    (fun i trajectory => trajectory.set i (traj_shifted.getD i default))
    trajectory
  trajectory.set (TRAJ_LENGTH - 1) body

/-! ## Main loop -/

/-- The simulation state owned by `main`: the two bodies, their trajectory
arrays and the window surface. -/
structure Sim (α : Type) where
  body : Body α
  body2 : Body α
  trajectory : List (Body α)
  trajectory2 : List (Body α)
  surface : Surface

/-- The state `main` builds before the loop (lines 151-155), for the two random
horizontal velocities it draws. -/
def mainInit (random_double1 random_double2 : α) : Sim α :=
  { body := ⟨900 / 2 - 100, 600 / 2 - 100, 18, random_double1, 25, 100⟩
    body2 := ⟨900 / 2 + 100, 600 / 2 + 100, 8, random_double2, -25, 10⟩
    trajectory := List.replicate TRAJ_LENGTH ⟨0, 0, 0, 0, 0, 0⟩
    trajectory2 := List.replicate TRAJ_LENGTH ⟨0, 0, 0, 0, 0, 0⟩
    surface := [] }

/-- One iteration of the loop of `main` (lines 166-177); `uninit` and `uninit2`
are the uninitialised locals of its two `UpdateTrajectory` calls. -/
def tick (sqrt : α → α) (uninit uninit2 : Nat → Body α) (s : Sim α) : Sim α :=
  let surface := SDL_FillRect s.surface ⟨0, 0, 900, 600⟩ COLOUR_LIGHT
  let surface := FillBody surface s.body COLOUR_DARK
  let surface := FillBody surface s.body2 COLOUR_DARK
  let p := step sqrt s.body s.body2
  let f := FillTrajectory surface s.trajectory
  let f2 := FillTrajectory f.1 s.trajectory2
  { body := p.1
    body2 := p.2
    trajectory := UpdateTrajectory uninit f.2 p.1
    trajectory2 := UpdateTrajectory uninit2 f2.2 p.2
    surface := f2.1 }

/-- The state after `n` iterations of the loop; iteration `k` (counted from 0)
finds `uninit k` and `uninit2 k` in its uninitialised locals. -/
def mainLoop (sqrt : α → α) (uninit uninit2 : Nat → Nat → Body α) (s : Sim α) :
    Nat → Sim α
  | 0 => s
  | n + 1 => tick sqrt (uninit n) (uninit2 n) (mainLoop sqrt uninit uninit2 s n)

/-- Repeated `UpdateTrajectory`, one call per body of the list, in order; call
`k` (counted from 0) finds `uninit k` in its uninitialised local. -/
def appendAll (uninit : Nat → Nat → Body α) (trajectory : List (Body α)) :
    List (Body α) → List (Body α)
  | [] => trajectory
  | body :: rest =>
    appendAll (fun k => uninit (k + 1)) (UpdateTrajectory (uninit 0) trajectory body) rest

/-! ## Division by zero made explicit -/

/-- Rounding of a real number to the nearest integer, ties to the even one. -/
def roundHalfEven (x : α) : Int :=
  if x - (⌊x⌋ : α) < 1 / 2 then ⌊x⌋
  else if 1 / 2 < x - (⌊x⌋ : α) then ⌊x⌋ + 1
  else if ⌊x⌋ % 2 = 0 then ⌊x⌋ else ⌊x⌋ + 1

/-- The exponent of the unit in the last place of binary64 at magnitude `q`:
53 significant bits, least exponent -1074 (subnormal range). -/
def ulpExponent (q : α) : Int := max (Int.log 2 q - 52) (-1074)

/-- Rounding of a non-negative number to binary64. -/
def roundMagnitude (q : α) : α :=
  (roundHalfEven (q / (2 : α) ^ ulpExponent q) : α) * (2 : α) ^ ulpExponent q

/-- Rounding to binary64, to nearest, ties to even; overflow to infinity is not
represented. -/
def roundDouble (q : α) : α := if 0 ≤ q then roundMagnitude q else -roundMagnitude (-q)

/-- Addition of doubles. -/
def fadd (a b : α) : α := roundDouble (a + b)

/-- Subtraction of doubles. -/
def fsub (a b : α) : α := roundDouble (a - b)

/-- Multiplication of doubles. -/
def fmul (a b : α) : α := roundDouble (a * b)

/-- Division of doubles. -/
def fdiv (a b : α) : α := roundDouble (a / b)

/-- The libm call `sqrt` on doubles: the exact square root `sqrt`, rounded. -/
def fsqrt (sqrt : α → α) (x : α) : α := roundDouble (sqrt x)

/-- The libm call `pow(x, n)` on doubles at a natural exponent: the exact power,
rounded. -/
def fpow (x : α) (n : Nat) : α := roundDouble (x ^ n)

/-- The `double` that the literal `0.1` of `DELTA_T` denotes. -/
def DELTA_T_double : α := roundDouble (1 / 10)

/-- The `double` that the literal `1.001` of `DAMPENING` denotes. -/
def DAMPENING_double : α := roundDouble (1001 / 1000)

/-- `checkEdges` (lines 49-69) on doubles. -/
def checkEdgesDouble (body : Body α) : Body α :=
  let body := if fadd body.x body.radius > SCREEN_WIDTH then
      { body with x := fsub SCREEN_WIDTH body.radius,
                  v_x := fmul (-body.v_x) DAMPENING_double }
    else body
  let body := if fadd body.y body.radius > SCREEN_HEIGHT then
      { body with y := fsub SCREEN_HEIGHT body.radius,
                  v_y := fmul (-body.v_y) DAMPENING_double }
    else body
  let body := if fsub body.y body.radius < 0 then
      { body with y := body.radius, v_y := fmul (-body.v_y) DAMPENING_double }
    else body
  let body := if fsub body.x body.radius < 0 then
      { body with x := body.radius, v_x := fmul (-body.v_x) DAMPENING_double }
    else body
  body

/-- None of the four tests of `checkEdges` holds of the body, on doubles. -/
def noBounceDouble (body : Body α) : Prop :=
  ¬ (fadd body.x body.radius > SCREEN_WIDTH) ∧ ¬ (fadd body.y body.radius > SCREEN_HEIGHT) ∧
    ¬ (fsub body.y body.radius < 0) ∧ ¬ (fsub body.x body.radius < 0)

/-- Lines 73-74 (and 76-77) on doubles: the position advance. -/
def advanceDouble (body : Body α) : Body α :=
  { body with x := fadd body.x (fmul body.v_x DELTA_T_double),
              y := fadd body.y (fmul body.v_y DELTA_T_double) }

/-- Line 79 on doubles, on the advanced bodies: the centre distance. -/
def distanceDouble (sqrt : α → α) (body body2 : Body α) : α :=
  fsqrt sqrt (fadd (fpow (fsub body.x body2.x) 2) (fpow (fsub body.y body2.y) 2))

/-- Lines 82-85 on doubles: the scalar force with its clamp. -/
def grav_fDouble (sqrt : α → α) (body body2 : Body α) : α :=
  let distance := distanceDouble sqrt body body2
  let grav_f := fdiv 100 (fpow distance 2)
  if distance ≤ fadd body.radius body2.radius then
    fdiv 100 (fpow (fadd body.radius body2.radius) 2)
  else grav_f

/-- Lines 79-87 on doubles: the gravity vector `(bx, by)`. -/
def gravityDouble (sqrt : α → α) (body body2 : Body α) : α × α :=
  let distance := distanceDouble sqrt body body2
  let nbx := fdiv (fsub body2.x body.x) distance
  let nby := fdiv (fsub body2.y body.y) distance
  let grav_f := grav_fDouble sqrt body body2
  let bx := fmul grav_f nbx
  let by_ := fmul grav_f nby
  (bx, by_)

/-- Lines 73-92 of `step` on doubles. -/
def stepGravityDouble (sqrt : α → α) (body body2 : Body α) : Body α × Body α :=
  let body := advanceDouble body
  let body2 := advanceDouble body2
  let g := gravityDouble sqrt body body2
  let bx := g.1
  let by_ := g.2
  let body := { body with v_x := fadd body.v_x (fmul bx body2.mass),
                          v_y := fadd body.v_y (fmul by_ body2.mass) }
  let body2 := { body2 with v_x := fadd body2.v_x (fmul (-bx) body.mass),
                            v_y := fadd body2.v_y (fmul (-by_) body.mass) }
  (body, body2)

/-- `step` (lines 71-96) on doubles. -/
def stepDouble (sqrt : α → α) (body body2 : Body α) : Body α × Body α :=
  let p := stepGravityDouble sqrt body body2
  (checkEdgesDouble p.1, checkEdgesDouble p.2)

/-- The divisors of the divisions `step` evaluates on doubles, in evaluation
order (lines 80, 81, 82 and, in the clamp branch, 85). -/
def stepDivisorsDouble (sqrt : α → α) (body body2 : Body α) : List α :=
  let body := advanceDouble body
  let body2 := advanceDouble body2
  let distance := distanceDouble sqrt body body2
  [distance, distance, fpow distance 2] ++
    (if distance ≤ fadd body.radius body2.radius then
      [fpow (fadd body.radius body2.radius) 2] else [])

/-- A body at rest at the origin. -/
def tinyGapA : Body α := ⟨0, 0, 1, 0, 0, 1⟩

/-- A body at rest `2^-600` to the right of `tinyGapA`. -/
def tinyGapB : Body α := ⟨(1 / 2) ^ 600, 0, 1, 0, 0, 1⟩

end Defs

/-! ## Loop lemmas -/

section Lemmas

variable {α : Type} [LinearOrderedField α]

theorem foldl_set_getElem? {β : Type} (g : Nat → β) (k lo n : Nat) (hk : k ≤ lo)
    (l : List β) (j : Nat) :
    ((List.range' lo n).foldl (fun l i => l.set (i - k) (g i)) l)[j]? =
      if lo - k ≤ j ∧ j < lo - k + n then (l[j]?).map (fun _ => g (j + k)) else l[j]? := by
  induction n generalizing l with
  | zero =>
    have h0 : ¬ (lo - k ≤ j ∧ j < lo - k + 0) := by omega
    rw [if_neg h0]; rfl
  | succ n ih =>
    rw [List.range'_1_concat, List.foldl_append, List.foldl_cons, List.foldl_nil,
      List.getElem?_set', ih]
    by_cases h1 : lo + n - k = j
    · have h2 : ¬ (lo - k ≤ j ∧ j < lo - k + n) := by omega
      have h3 : lo - k ≤ j ∧ j < lo - k + (n + 1) := by omega
      have h4 : j + k = lo + n := by omega
      rw [if_pos h1, if_neg h2, if_pos h3, h4]; rfl
    · rw [if_neg h1]
      by_cases h2 : lo - k ≤ j ∧ j < lo - k + n
      · have h3 : lo - k ≤ j ∧ j < lo - k + (n + 1) := by omega
        rw [if_pos h2, if_pos h3]
      · have h3 : ¬ (lo - k ≤ j ∧ j < lo - k + (n + 1)) := by omega
        rw [if_neg h2, if_neg h3]

theorem foldl_set_getElem?_id {β : Type} (g : Nat → β) (lo n : Nat) (l : List β) (j : Nat) :
    ((List.range' lo n).foldl (fun l i => l.set i (g i)) l)[j]? =
      if lo ≤ j ∧ j < lo + n then (l[j]?).map (fun _ => g j) else l[j]? := by
  simpa using foldl_set_getElem? g 0 lo n (Nat.zero_le _) l j

/-- On a full array `UpdateTrajectory` is: drop the head, append the body. -/
theorem UpdateTrajectory_eq (uninit : Nat → Body α) (t : List (Body α)) (b : Body α)
    (ht : t.length = TRAJ_LENGTH) : UpdateTrajectory uninit t b = t.tail ++ [b] := by
  unfold TRAJ_LENGTH at ht
  apply List.ext_getElem?
  intro j
  have hs : ∀ i, i < 299 →
      (List.foldl (fun s i => s.set (i - 1) (t.getD i default))
        (List.map uninit (List.range 300)) (List.range' 1 (300 - 1))).getD i default
        = t.getD (i + 1) default := by
    intro i hi
    have hc : 1 - 1 ≤ i ∧ i < 1 - 1 + (300 - 1) := by omega
    have hr : i < (List.range 300).length := by rw [List.length_range]; omega
    rw [List.getD_eq_getElem?_getD,
      foldl_set_getElem? (fun i => t.getD i default) 1 1 (300 - 1) (le_refl 1), if_pos hc,
      List.getElem?_map, List.getElem?_eq_getElem hr]
    rfl
  simp only [UpdateTrajectory, forRange, TRAJ_LENGTH]
  rw [List.getElem?_set', foldl_set_getElem?_id]
  have hl : t.tail.length = 299 := by rw [List.length_tail, ht]
  rcases Nat.lt_trichotomy j 299 with hj | hj | hj
  · have h1 : ¬ (300 - 1 = j) := by omega
    have h2 : 0 ≤ j ∧ j < 0 + (300 - 0) := by omega
    have h3 : j < t.length := by omega
    have h4 : j < t.tail.length := by omega
    have h5 : j + 1 < t.length := by omega
    rw [if_neg h1, if_pos h2, hs j hj, List.getElem?_eq_getElem h3,
      List.getElem?_append_left h4, List.getElem?_eq_getElem h4, List.getElem_tail,
      List.getD_eq_getElem _ _ h5]
    rfl
  · subst hj
    have h2 : 0 ≤ 299 ∧ 299 < 0 + (300 - 0) := by omega
    have h3 : 299 < t.length := by omega
    rw [if_pos rfl, if_pos h2, List.getElem?_eq_getElem h3,
      List.getElem?_append_right (by omega), hl]
    rfl
  · have h1 : ¬ (300 - 1 = j) := by omega
    have h2 : ¬ (0 ≤ j ∧ j < 0 + (300 - 0)) := by omega
    rw [if_neg h1, if_neg h2, List.getElem?_eq_none (by omega),
      List.getElem?_eq_none (by simp [hl]; omega)]

theorem foldl_snd {σ β : Type} (A : Nat → σ × β → σ) (B : Nat → β → β) (xs : List Nat)
    (s : σ × β) :
    (xs.foldl (fun s i => (A i s, B i s.2)) s).2 = xs.foldl (fun t i => B i t) s.2 := by
  induction xs generalizing s with
  | nil => rfl
  | cons x xs ih => rw [List.foldl_cons, List.foldl_cons, ih]

theorem foldl_modify_getElem? {β : Type} (h : β → β) (d : β) (n : Nat) (l : List β)
    (j : Nat) :
    ((List.range' 0 n).foldl (fun l i => l.set i (h (l.getD i d))) l)[j]? =
      if j < n then (l[j]?).map h else l[j]? := by
  induction n with
  | zero => rfl
  | succ n ih =>
    rw [List.range'_1_concat, List.foldl_append, List.foldl_cons, List.foldl_nil,
      List.getElem?_set', ih, Nat.zero_add]
    by_cases h1 : n = j
    · subst h1
      have h2 : ¬ (n < n) := by omega
      have h3 : n < n + 1 := by omega
      rw [if_pos rfl, if_neg h2, if_pos h3, List.getD_eq_getElem?_getD, ih, if_neg h2]
      cases l[n]? <;> rfl
    · rw [if_neg h1]
      by_cases h2 : j < n
      · have h3 : j < n + 1 := by omega
        rw [if_pos h2, if_pos h3]
      · have h3 : ¬ (j < n + 1) := by omega
        rw [if_neg h2, if_neg h3]

/-- On a full array `FillTrajectory` leaves every entry with radius
`TRAJ_WIDTH` and everything else as it was. -/
theorem FillTrajectory_snd [FloorRing α] (surface : Surface) (t : List (Body α))
    (ht : t.length = TRAJ_LENGTH) :
    (FillTrajectory surface t).2 = t.map setTrajWidth := by
  unfold TRAJ_LENGTH at ht
  apply List.ext_getElem?
  intro j
  simp only [FillTrajectory, forRange, TRAJ_LENGTH]
  rw [foldl_snd (fun i (s : Surface × List (Body α)) =>
      FillBody s.1 ((s.2.set i (setTrajWidth (s.2.getD i default))).getD i default)
        COLOUR_DARK)
    (fun i (t : List (Body α)) => t.set i (setTrajWidth (t.getD i default)))]
  rw [foldl_modify_getElem? setTrajWidth default, List.getElem?_map]
  by_cases hj : j < 300 - 0
  · rw [if_pos hj]
  · have hn : t[j]? = none := List.getElem?_eq_none (by omega)
    rw [if_neg hj]
    show t[j]? = Option.map _ t[j]?
    rw [hn]; rfl

theorem setTrajWidth_idem (b : Body α) : setTrajWidth (setTrajWidth b) = setTrajWidth b := rfl

theorem tick_trajectory [FloorRing α] (sqrt : α → α) (u u2 : Nat → Body α) (s : Sim α)
    (h : s.trajectory.length = TRAJ_LENGTH) :
    (tick sqrt u u2 s).trajectory =
      (s.trajectory.map setTrajWidth).tail ++ [(tick sqrt u u2 s).body] := by
  simp only [tick]
  rw [FillTrajectory_snd _ _ h, UpdateTrajectory_eq _ _ _ (by rw [List.length_map]; exact h)]

theorem tick_trajectory2 [FloorRing α] (sqrt : α → α) (u u2 : Nat → Body α) (s : Sim α)
    (h : s.trajectory2.length = TRAJ_LENGTH) :
    (tick sqrt u u2 s).trajectory2 =
      (s.trajectory2.map setTrajWidth).tail ++ [(tick sqrt u u2 s).body2] := by
  simp only [tick]
  rw [FillTrajectory_snd _ _ h, UpdateTrajectory_eq _ _ _ (by rw [List.length_map]; exact h)]

/-- Repeated `UpdateTrajectory` on a full array keeps the last `TRAJ_LENGTH`
entries of the initial array followed by the appended bodies. -/
theorem appendAll_eq (uninit : Nat → Nat → Body α) (t bs : List (Body α))
    (ht : t.length = TRAJ_LENGTH) : appendAll uninit t bs = (t ++ bs).drop bs.length := by
  induction bs generalizing t uninit with
  | nil => simp [appendAll]
  | cons b bs ih =>
    have hne : t ≠ [] := by
      intro h; rw [h] at ht; simp [TRAJ_LENGTH] at ht
    obtain ⟨a, t1, rfl⟩ := List.exists_cons_of_ne_nil hne
    have hl : (UpdateTrajectory (uninit 0) (a :: t1) b).length = TRAJ_LENGTH := by
      rw [UpdateTrajectory_eq _ _ _ ht]
      simpa using ht
    rw [appendAll, ih _ _ hl, UpdateTrajectory_eq _ _ _ ht]
    simp

/-- A buffer that every tick is mapped through `shrink`, loses its head and
gains `B (n + 1)` at the end: its content after any number of ticks. -/
theorem trail_eq {β : Type} (shrink : β → β) (hidem : ∀ b, shrink (shrink b) = shrink b)
    (T : Nat → List β) (B : Nat → β) (h0 : (T 0).length = 300)
    (hstep : ∀ n, (T n).length = 300 → T (n + 1) = ((T n).map shrink).tail ++ [B (n + 1)])
    (n : Nat) :
    (T n).length = 300 ∧
      T (n + 1) = (((T 0 ++ (List.range n).map (fun i => B (i + 1))).map shrink).drop (n + 1))
        ++ [B (n + 1)] := by
  induction n with
  | zero =>
    refine ⟨h0, ?_⟩
    rw [hstep 0 h0]
    simp
  | succ n ih =>
    obtain ⟨hl, he⟩ := ih
    have hl1 : (T (n + 1)).length = 300 := by
      rw [hstep n hl]; simp [hl]
    refine ⟨hl1, ?_⟩
    rw [hstep (n + 1) hl1, he]
    congr 1
    have hX : T 0 ++ List.map (fun i => B (i + 1)) (List.range n ++ [n]) =
        (T 0 ++ List.map (fun i => B (i + 1)) (List.range n)) ++ [B (n + 1)] := by
      rw [List.map_append, List.append_assoc]; rfl
    have hlen : n + 1 ≤ (T 0 ++ List.map (fun i => B (i + 1)) (List.range n)).length := by
      rw [List.length_append, List.length_map, List.length_range, h0]; omega
    rw [List.range_succ, hX]
    generalize T 0 ++ List.map (fun i => B (i + 1)) (List.range n) = X at he hlen ⊢
    have hm : List.map shrink (List.map shrink X) = List.map shrink X := by
      rw [List.map_map]; exact congrArg (fun f => List.map f X) (funext hidem)
    have hlen1 : n + 1 ≤ (List.map shrink X).length := by
      rw [List.length_map]; exact hlen
    rw [List.map_append, List.map_append, List.map_drop, hm,
      ← List.drop_append_of_le_length hlen1, List.tail_drop]

/-- From tick 300 on, the buffer of `trail_eq` is made of the last 300 values
of `B`, all but the newest mapped through `shrink`. -/
theorem trail_recent {β : Type} (shrink : β → β) (hidem : ∀ b, shrink (shrink b) = shrink b)
    (T : Nat → List β) (B : Nat → β) (h0 : (T 0).length = 300)
    (hstep : ∀ n, (T n).length = 300 → T (n + 1) = ((T n).map shrink).tail ++ [B (n + 1)])
    (n : Nat) (hn : 300 ≤ n) :
    T n = (List.range 299).map (fun i => shrink (B (n - 299 + i))) ++ [B n] := by
  obtain ⟨m, rfl⟩ : ∃ m, n = m + 1 := ⟨n - 1, by omega⟩
  rw [(trail_eq shrink hidem T B h0 hstep m).2]
  congr 1
  apply List.ext_getElem?
  intro j
  rw [List.getElem?_drop, List.getElem?_map, List.getElem?_map,
    List.getElem?_append_right (by omega), h0, List.getElem?_map]
  by_cases hj : j < 299
  · have h1 : m + 1 + j - 300 < (List.range m).length := by rw [List.length_range]; omega
    have h2 : j < (List.range 299).length := by rw [List.length_range]; omega
    have h3 : m + 1 + j - 300 + 1 = m + 1 - 299 + j := by omega
    rw [List.getElem?_eq_getElem h1, List.getElem?_eq_getElem h2, List.getElem_range,
      List.getElem_range]
    simp only [Option.map_some', h3]
  · have h1 : (List.range m)[m + 1 + j - 300]? = none :=
      List.getElem?_eq_none (by rw [List.length_range]; omega)
    have h2 : (List.range 299)[j]? = none :=
      List.getElem?_eq_none (by rw [List.length_range]; omega)
    rw [h1, h2]; rfl

/-! ## Physics lemmas -/

theorem checkEdges_of_noBounce (body : Body α) (h : noBounce body) : checkEdges body = body := by
  obtain ⟨h1, h2, h3, h4⟩ := h
  simp only [checkEdges, if_neg h1, if_neg h2, if_neg h3, if_neg h4]

theorem sqrt_sq_of_nonneg (sqrt : α → α) (hs : IsSqrt sqrt) (y : α) (hy : 0 ≤ y) :
    sqrt (y ^ 2) = y := by
  obtain ⟨h0, h1⟩ := hs (y ^ 2) (sq_nonneg y)
  have h2 : sqrt (y ^ 2) ^ 2 = y ^ 2 := by rw [sq]; exact h1
  exact (pow_left_inj₀ h0 hy two_ne_zero).mp h2

theorem distance_nonneg (sqrt : α → α) (hs : IsSqrt sqrt) (a b : Body α) :
    0 ≤ distance sqrt a b :=
  (hs _ (add_nonneg (sq_nonneg _) (sq_nonneg _))).1

theorem distance_sq (sqrt : α → α) (hs : IsSqrt sqrt) (a b : Body α) :
    pow (distance sqrt a b) 2 = (b.x - a.x) ^ 2 + (b.y - a.y) ^ 2 := by
  have h := (hs _ (add_nonneg (sq_nonneg (a.x - b.x)) (sq_nonneg (a.y - b.y)))).2
  unfold pow distance
  unfold pow
  rw [sq, h]; ring

theorem distance_eq_zero_iff (sqrt : α → α) (hs : IsSqrt sqrt) (a b : Body α) :
    distance sqrt a b = 0 ↔ a.x = b.x ∧ a.y = b.y := by
  have h := distance_sq sqrt hs a b
  unfold pow at h
  constructor
  · intro h0
    rw [h0] at h
    have h1 : (b.x - a.x) ^ 2 = 0 := by nlinarith [sq_nonneg (b.x - a.x), sq_nonneg (b.y - a.y)]
    have h2 : (b.y - a.y) ^ 2 = 0 := by nlinarith [sq_nonneg (b.x - a.x), sq_nonneg (b.y - a.y)]
    have h3 := pow_eq_zero_iff (two_ne_zero) |>.mp h1
    have h4 := pow_eq_zero_iff (two_ne_zero) |>.mp h2
    exact ⟨by linarith, by linarith⟩
  · rintro ⟨hx, hy⟩
    rw [hx, hy] at h
    simp only [sub_self, ne_eq, OfNat.ofNat_ne_zero, not_false_eq_true, zero_pow, add_zero] at h
    exact pow_eq_zero_iff (two_ne_zero) |>.mp h

theorem gravity_norm (sqrt : α → α) (hs : IsSqrt sqrt) (a b : Body α)
    (hd : 0 < distance sqrt a b) (hF : 0 ≤ grav_f sqrt a b) :
    sqrt ((gravity sqrt a b).1 ^ 2 + (gravity sqrt a b).2 ^ 2) = grav_f sqrt a b := by
  have h := distance_sq sqrt hs a b
  unfold pow at h
  have hne : distance sqrt a b ≠ 0 := ne_of_gt hd
  have he : (gravity sqrt a b).1 ^ 2 + (gravity sqrt a b).2 ^ 2 = grav_f sqrt a b ^ 2 := by
    simp only [gravity]
    field_simp
    rw [h]; ring
  rw [he]
  exact sqrt_sq_of_nonneg sqrt hs _ hF

theorem gravity_direction (sqrt : α → α) (a b : Body α) :
    (gravity sqrt a b).1 = grav_f sqrt a b / distance sqrt a b * (b.x - a.x) ∧
      (gravity sqrt a b).2 = grav_f sqrt a b / distance sqrt a b * (b.y - a.y) := by
  simp only [gravity]
  constructor <;> ring

theorem advance_radius (a : Body α) : (advance a).radius = a.radius := rfl

theorem advance_mass (a : Body α) : (advance a).mass = a.mass := rfl

theorem checkEdges_radius (a : Body α) : (checkEdges a).radius = a.radius := by
  simp only [checkEdges]
  split_ifs <;> rfl

/-- The horizontal velocity after `checkEdges`: the right test, then the left
test on the position the right test left. -/
theorem checkEdges_v_x (b : Body α) :
    (checkEdges b).v_x =
      if (if b.x + b.radius > SCREEN_WIDTH then SCREEN_WIDTH - b.radius else b.x) - b.radius < 0
      then -(if b.x + b.radius > SCREEN_WIDTH then -b.v_x * DAMPENING else b.v_x) * DAMPENING
      else (if b.x + b.radius > SCREEN_WIDTH then -b.v_x * DAMPENING else b.v_x) := by
  unfold checkEdges
  by_cases h1 : b.x + b.radius > SCREEN_WIDTH <;> by_cases h2 : b.y + b.radius > SCREEN_HEIGHT <;>
    simp only [h1, h2, if_true, if_false] <;> split_ifs <;> rfl

/-- The vertical velocity after `checkEdges`: the bottom test, then the top
test on the position the bottom test left. -/
theorem checkEdges_v_y (b : Body α) :
    (checkEdges b).v_y =
      if (if b.y + b.radius > SCREEN_HEIGHT then SCREEN_HEIGHT - b.radius else b.y) - b.radius < 0
      then -(if b.y + b.radius > SCREEN_HEIGHT then -b.v_y * DAMPENING else b.v_y) * DAMPENING
      else (if b.y + b.radius > SCREEN_HEIGHT then -b.v_y * DAMPENING else b.v_y) := by
  unfold checkEdges
  by_cases h1 : b.x + b.radius > SCREEN_WIDTH <;> by_cases h2 : b.y + b.radius > SCREEN_HEIGHT <;>
    simp only [h1, h2, if_true, if_false] <;> split_ifs <;> rfl

theorem step_radius (sqrt : α → α) (a b : Body α) :
    (step sqrt a b).1.radius = a.radius ∧ (step sqrt a b).2.radius = b.radius := by
  simp only [step, checkEdges_radius]
  exact ⟨rfl, rfl⟩

theorem isSqrt_real : IsSqrt Real.sqrt :=
  fun x hx => ⟨Real.sqrt_nonneg x, Real.mul_self_sqrt hx⟩

theorem scenario_distance :
    distance Real.sqrt (advance (scenarioA : Body ℝ)) (advance scenarioB) = Real.sqrt 78025 := by
  simp only [distance, advance, scenarioA, scenarioB, pow, DELTA_T]
  norm_num

theorem scenario_far :
    (scenarioA : Body ℝ).radius + (scenarioB : Body ℝ).radius <
      distance Real.sqrt (advance scenarioA) (advance scenarioB) := by
  rw [scenario_distance, Real.lt_sqrt (by simp only [scenarioA, scenarioB]; norm_num)]
  simp only [scenarioA, scenarioB]
  norm_num

theorem scenario_noBounceA : noBounce (advance (scenarioA : Body ℝ)) := by
  simp only [noBounce, advance, scenarioA, SCREEN_WIDTH, SCREEN_HEIGHT, DELTA_T]
  norm_num

theorem scenario_noBounceB : noBounce (advance (scenarioB : Body ℝ)) := by
  simp only [noBounce, advance, scenarioB, SCREEN_WIDTH, SCREEN_HEIGHT, DELTA_T]
  norm_num

theorem scenario_apart :
    (advance (scenarioA : Body ℝ)).x ≠ (advance scenarioB).x ∨
      (advance (scenarioA : Body ℝ)).y ≠ (advance scenarioB).y := by
  left
  simp only [advance, scenarioA, scenarioB, DELTA_T]
  norm_num

/-- The gravity update of lines 89-92 adds opposite momenta to the two bodies. -/
theorem stepGravity_momentum (sqrt : α → α) (a b : Body α) :
    (stepGravity sqrt a b).1.mass * (stepGravity sqrt a b).1.v_x +
        (stepGravity sqrt a b).2.mass * (stepGravity sqrt a b).2.v_x =
        a.mass * a.v_x + b.mass * b.v_x ∧
      (stepGravity sqrt a b).1.mass * (stepGravity sqrt a b).1.v_y +
        (stepGravity sqrt a b).2.mass * (stepGravity sqrt a b).2.v_y =
        a.mass * a.v_y + b.mass * b.v_y := by
  simp only [stepGravity, advance]
  constructor <;> ring

theorem step_of_noBounce (sqrt : α → α) (a b : Body α) (ha : noBounce (advance a))
    (hb : noBounce (advance b)) : step sqrt a b = stepGravity sqrt a b := by
  have h1 : checkEdges (stepGravity sqrt a b).1 = (stepGravity sqrt a b).1 :=
    checkEdges_of_noBounce _ ha
  have h2 : checkEdges (stepGravity sqrt a b).2 = (stepGravity sqrt a b).2 :=
    checkEdges_of_noBounce _ hb
  simp only [step, h1, h2]

theorem checkEdges_mass (a : Body α) : (checkEdges a).mass = a.mass := by
  simp only [checkEdges]
  split_ifs <;> rfl

/-- The horizontal position after `checkEdges`: the right clamp, then the left
clamp on the position the right test left. -/
theorem checkEdges_x (b : Body α) :
    (checkEdges b).x =
      if (if b.x + b.radius > SCREEN_WIDTH then SCREEN_WIDTH - b.radius else b.x) - b.radius < 0
      then b.radius
      else (if b.x + b.radius > SCREEN_WIDTH then SCREEN_WIDTH - b.radius else b.x) := by
  unfold checkEdges
  by_cases h1 : b.x + b.radius > SCREEN_WIDTH <;> by_cases h2 : b.y + b.radius > SCREEN_HEIGHT <;>
    simp only [h1, h2, if_true, if_false] <;> split_ifs <;> rfl

/-- The vertical position after `checkEdges`: the bottom clamp, then the top
clamp on the position the bottom test left. -/
theorem checkEdges_y (b : Body α) :
    (checkEdges b).y =
      if (if b.y + b.radius > SCREEN_HEIGHT then SCREEN_HEIGHT - b.radius else b.y) - b.radius < 0
      then b.radius
      else (if b.y + b.radius > SCREEN_HEIGHT then SCREEN_HEIGHT - b.radius else b.y) := by
  unfold checkEdges
  by_cases h1 : b.x + b.radius > SCREEN_WIDTH <;> by_cases h2 : b.y + b.radius > SCREEN_HEIGHT <;>
    simp only [h1, h2, if_true, if_false] <;> split_ifs <;> rfl

/-- A body no wider than the screen is inside it after `checkEdges`. -/
theorem checkEdges_inside (b : Body α) (hw : 2 * b.radius ≤ SCREEN_WIDTH)
    (hh : 2 * b.radius ≤ SCREEN_HEIGHT) :
    b.radius ≤ (checkEdges b).x ∧ (checkEdges b).x ≤ SCREEN_WIDTH - b.radius ∧
      b.radius ≤ (checkEdges b).y ∧ (checkEdges b).y ≤ SCREEN_HEIGHT - b.radius := by
  rw [checkEdges_x, checkEdges_y]
  refine ⟨?_, ?_, ?_, ?_⟩ <;> split_ifs <;> linarith

theorem step_mass (sqrt : α → α) (a b : Body α) :
    (step sqrt a b).1.mass = a.mass ∧ (step sqrt a b).2.mass = b.mass := by
  simp only [step, checkEdges_mass]
  exact ⟨rfl, rfl⟩

/-- Any number of calls of `step` leaves both radii as they were. -/
theorem iterate_step_radius (sqrt : α → α) (a b : Body α) (n : Nat) :
    ((fun p : Body α × Body α => step sqrt p.1 p.2)^[n] (a, b)).1.radius = a.radius ∧
      ((fun p : Body α × Body α => step sqrt p.1 p.2)^[n] (a, b)).2.radius = b.radius := by
  induction n with
  | zero => exact ⟨rfl, rfl⟩
  | succ n ih =>
    rw [Function.iterate_succ_apply']
    exact ⟨(step_radius sqrt _ _).1.trans ih.1, (step_radius sqrt _ _).2.trans ih.2⟩

/-- The gravity computed for the swapped pair is the opposite vector. -/
theorem gravity_swap (sqrt : α → α) (a b : Body α) :
    (gravity sqrt b a).1 = -(gravity sqrt a b).1 ∧ (gravity sqrt b a).2 = -(gravity sqrt a b).2 := by
  have hd : distance sqrt b a = distance sqrt a b := by
    simp only [distance, pow]
    congr 1; ring
  have hF : grav_f sqrt b a = grav_f sqrt a b := by
    simp only [grav_f, hd, add_comm b.radius a.radius]
  simp only [gravity, hd, hF]
  constructor <;> ring

theorem stepGravity_swap (sqrt : α → α) (a b : Body α) :
    stepGravity sqrt b a = ((stepGravity sqrt a b).2, (stepGravity sqrt a b).1) := by
  obtain ⟨h1, h2⟩ := gravity_swap sqrt (advance a) (advance b)
  simp only [stepGravity, h1, h2]
  simp only [advance, neg_neg]

theorem sqrt_zero_of_isSqrt (sqrt : α → α) (hs : IsSqrt sqrt) : sqrt 0 = 0 := by
  have h := (hs 0 (le_refl 0)).2
  exact mul_self_eq_zero.mp h

theorem lt_sqrt_of_sq_lt (sqrt : α → α) (hs : IsSqrt sqrt) (x lo : α) (hx : 0 ≤ x)
    (h : lo * lo < x) : lo < sqrt x := by
  obtain ⟨h0, h1⟩ := hs x hx
  by_contra hc
  have hle : sqrt x ≤ lo := not_lt.mp hc
  have : sqrt x * sqrt x ≤ lo * lo := mul_self_le_mul_self h0 hle
  rw [h1] at this
  exact absurd h (not_lt.mpr this)

theorem sqrt_lt_of_lt_sq (sqrt : α → α) (hs : IsSqrt sqrt) (x hi : α) (hx : 0 ≤ x)
    (hhi : 0 ≤ hi) (h : x < hi * hi) : sqrt x < hi := by
  obtain ⟨h0, h1⟩ := hs x hx
  by_contra hc
  have hle : hi ≤ sqrt x := not_lt.mp hc
  have : hi * hi ≤ sqrt x * sqrt x := mul_self_le_mul_self hhi hle
  rw [h1] at this
  exact absurd h (not_lt.mpr this)

section Rounding

variable [FloorRing α]

theorem roundHalfEven_eq (x : α) (m : Int) (h : |x - (m : α)| < 1 / 2) : roundHalfEven x = m := by
  rw [abs_lt] at h
  obtain ⟨h1, h2⟩ := h
  by_cases hx : (m : α) ≤ x
  · have hf : ⌊x⌋ = m := Int.floor_eq_iff.mpr ⟨hx, by linarith⟩
    unfold roundHalfEven
    rw [hf, if_pos (by linarith)]
  · have hf : ⌊x⌋ = m - 1 := Int.floor_eq_iff.mpr ⟨by push_cast; linarith, by push_cast; linarith⟩
    unfold roundHalfEven
    rw [hf, if_neg (by push_cast; linarith), if_pos (by push_cast; linarith)]
    ring

theorem floor_le_roundHalfEven (x : α) : ⌊x⌋ ≤ roundHalfEven x := by
  unfold roundHalfEven
  split_ifs <;> omega

theorem ulpExponent_eq (q : α) (e : Int) (he : -1074 ≤ e) (h1 : (2 : α) ^ (52 + e) ≤ q)
    (h2 : q < (2 : α) ^ (53 + e)) : ulpExponent q = e := by
  have hq : 0 < q := lt_of_lt_of_le (by positivity) h1
  have hl : Int.log 2 q = 52 + e := by
    apply le_antisymm
    · have := (Int.lt_zpow_iff_log_lt (R := α) (b := 2) (by norm_num) (x := 53 + e) hq).mp
        (by simpa using h2)
      omega
    · exact (Int.zpow_le_iff_le_log (R := α) (b := 2) (by norm_num) hq).mp (by simpa using h1)
  unfold ulpExponent
  rw [hl]
  omega

/-- A positive number inside the binade of exponent `e` rounds to `m * 2^e`
when its quotient by `2^e` is within one half of the integer `m`. -/
theorem roundDouble_eq (q : α) (m e : Int) (he : -1074 ≤ e) (h1 : (2 : α) ^ (52 + e) ≤ q)
    (h2 : q < (2 : α) ^ (53 + e)) (hm : |q / (2 : α) ^ e - (m : α)| < 1 / 2) :
    roundDouble q = (m : α) * (2 : α) ^ e := by
  have hq : 0 < q := lt_of_lt_of_le (by positivity) h1
  unfold roundDouble roundMagnitude
  rw [if_pos (le_of_lt hq), ulpExponent_eq q e he h1 h2, roundHalfEven_eq _ m hm]

theorem roundHalfEven_zero : roundHalfEven (0 : α) = 0 := by
  simpa using roundHalfEven_eq (0 : α) 0 (by norm_num)

theorem roundDouble_zero : roundDouble (0 : α) = 0 := by
  unfold roundDouble roundMagnitude
  rw [if_pos (le_refl 0), zero_div, roundHalfEven_zero]
  simp

theorem roundHalfEven_nonneg (x : α) (hx : 0 ≤ x) : 0 ≤ roundHalfEven x :=
  le_trans (Int.floor_nonneg.mpr hx) (floor_le_roundHalfEven x)

theorem intCast_le_roundHalfEven (x : α) (n : Int) (h : (n : α) ≤ x) : n ≤ roundHalfEven x :=
  le_trans (Int.le_floor.mpr h) (floor_le_roundHalfEven x)

theorem ulpExponent_ge (q : α) : -1074 ≤ ulpExponent q := le_max_right _ _

theorem roundDouble_nonneg (q : α) (hq : 0 ≤ q) : 0 ≤ roundDouble q := by
  unfold roundDouble roundMagnitude
  rw [if_pos hq]
  have h1 : 0 ≤ roundHalfEven (q / (2 : α) ^ ulpExponent q) :=
    roundHalfEven_nonneg _ (div_nonneg hq (by positivity))
  have h2 : (0 : α) ≤ (roundHalfEven (q / (2 : α) ^ ulpExponent q) : α) := by exact_mod_cast h1
  positivity

/-- A non-negative number that does not round to zero rounds to at least the
least positive double. -/
theorem roundDouble_ge_least (q : α) (hq : 0 ≤ q) (hne : roundDouble q ≠ 0) :
    (2 : α) ^ (-1074 : Int) ≤ roundDouble q := by
  unfold roundDouble roundMagnitude at hne ⊢
  rw [if_pos hq] at hne ⊢
  have h1 : 0 ≤ roundHalfEven (q / (2 : α) ^ ulpExponent q) :=
    roundHalfEven_nonneg _ (div_nonneg hq (by positivity))
  have h0 : roundHalfEven (q / (2 : α) ^ ulpExponent q) ≠ 0 := by
    intro h; rw [h] at hne; simp at hne
  have h2 : (1 : Int) ≤ roundHalfEven (q / (2 : α) ^ ulpExponent q) := by omega
  have h3 : (1 : α) ≤ (roundHalfEven (q / (2 : α) ^ ulpExponent q) : α) := by exact_mod_cast h2
  have h4 : (2 : α) ^ (-1074 : Int) ≤ (2 : α) ^ ulpExponent q :=
    zpow_le_zpow_right₀ (by norm_num) (ulpExponent_ge q)
  calc (2 : α) ^ (-1074 : Int) ≤ (2 : α) ^ ulpExponent q := h4
    _ = 1 * (2 : α) ^ ulpExponent q := (one_mul _).symm
    _ ≤ _ := mul_le_mul_of_nonneg_right h3 (by positivity)

/-- Rounding does not go below a power of two that the number reaches. -/
theorem two_zpow_le_roundDouble (q : α) (k : Int) (hk : -1074 ≤ k) (h : (2 : α) ^ k ≤ q) :
    (2 : α) ^ k ≤ roundDouble q := by
  have hq : 0 < q := lt_of_lt_of_le (by positivity) h
  have hlog : k ≤ Int.log 2 q :=
    (Int.zpow_le_iff_le_log (R := α) (b := 2) (by norm_num) hq).mp (by simpa using h)
  unfold roundDouble roundMagnitude
  rw [if_pos (le_of_lt hq)]
  have hpos : (0 : α) < (2 : α) ^ ulpExponent q := by positivity
  by_cases hek : ulpExponent q ≤ k
  · obtain ⟨n, hn⟩ : ∃ n : Nat, k - ulpExponent q = (n : Int) :=
      ⟨(k - ulpExponent q).toNat, by omega⟩
    have hpow : (2 : α) ^ n * (2 : α) ^ ulpExponent q = (2 : α) ^ k := by
      rw [← zpow_natCast, ← zpow_add₀ (by norm_num : (2 : α) ≠ 0)]
      congr 1; omega
    have hquot : (((2 : Int) ^ n : Int) : α) ≤ q / (2 : α) ^ ulpExponent q := by
      rw [le_div_iff₀ hpos]
      push_cast
      rw [hpow]; exact h
    have hm := intCast_le_roundHalfEven _ _ hquot
    have hm' : (((2 : Int) ^ n : Int) : α) ≤
        (roundHalfEven (q / (2 : α) ^ ulpExponent q) : α) := by
      exact_mod_cast hm
    calc (2 : α) ^ k = (((2 : Int) ^ n : Int) : α) * (2 : α) ^ ulpExponent q := by
          push_cast; exact hpow.symm
      _ ≤ _ := mul_le_mul_of_nonneg_right hm' (le_of_lt hpos)
  · have hke : k < ulpExponent q := not_le.mp hek
    have he : ulpExponent q ≤ Int.log 2 q := by
      unfold ulpExponent at hke ⊢
      exact max_le (by omega) (by omega)
    have h2e : (2 : α) ^ ulpExponent q ≤ q :=
      le_trans (zpow_le_zpow_right₀ (by norm_num) he)
        (by simpa using Int.zpow_log_le_self (R := α) (b := 2) (by norm_num) hq)
    have hquot : (((1 : Int)) : α) ≤ q / (2 : α) ^ ulpExponent q := by
      rw [le_div_iff₀ hpos]
      push_cast
      rw [one_mul]; exact h2e
    have hm := intCast_le_roundHalfEven _ _ hquot
    have hm' : (1 : α) ≤ (roundHalfEven (q / (2 : α) ^ ulpExponent q) : α) := by
      exact_mod_cast hm
    calc (2 : α) ^ k ≤ (2 : α) ^ ulpExponent q :=
          zpow_le_zpow_right₀ (by norm_num) (le_of_lt hke)
      _ = 1 * (2 : α) ^ ulpExponent q := (one_mul _).symm
      _ ≤ _ := mul_le_mul_of_nonneg_right hm' (le_of_lt hpos)

/-- Underflow: a non-negative number below half the least positive double
rounds to zero. -/
theorem roundDouble_underflow (q : α) (hq : 0 ≤ q) (h : q < (2 : α) ^ (-1075 : Int)) :
    roundDouble q = 0 := by
  rcases eq_or_lt_of_le hq with h0 | hpos
  · rw [← h0]; exact roundDouble_zero
  have hlog : Int.log 2 q < -1075 :=
    (Int.lt_zpow_iff_log_lt (R := α) (b := 2) (by norm_num) hpos).mp (by simpa using h)
  have he : ulpExponent q = -1074 := by
    unfold ulpExponent; omega
  unfold roundDouble roundMagnitude
  rw [if_pos hq, he]
  have hx : |q / (2 : α) ^ (-1074 : Int) - ((0 : Int) : α)| < 1 / 2 := by
    rw [Int.cast_zero, sub_zero, abs_of_nonneg (div_nonneg hq (by positivity)),
      div_lt_iff₀ (by positivity)]
    calc q < (2 : α) ^ (-1075 : Int) := h
      _ = 1 / 2 * (2 : α) ^ (-1074 : Int) := by
        rw [show (-1074 : Int) = -1075 + 1 by norm_num, zpow_add₀ (by norm_num : (2 : α) ≠ 0)]
        simp
        ring
  rw [roundHalfEven_eq _ 0 hx]
  simp

theorem roundDouble_neg (q : α) (hq : 0 < q) : roundDouble (-q) = -roundDouble q := by
  unfold roundDouble
  rw [if_neg (by linarith), if_pos (le_of_lt hq), neg_neg]

/-- The rounding of a negative number whose opposite lies inside the binade of
exponent `e`. -/
theorem roundDouble_eq_of_neg (q : α) (m e : Int) (he : -1074 ≤ e)
    (h1 : (2 : α) ^ (52 + e) ≤ -q) (h2 : -q < (2 : α) ^ (53 + e))
    (hm : |(-q) / (2 : α) ^ e - (m : α)| < 1 / 2) :
    roundDouble q = -((m : α) * (2 : α) ^ e) := by
  have hq : 0 < -q := lt_of_lt_of_le (by positivity) h1
  have h := roundDouble_neg (-q) hq
  rw [neg_neg] at h
  rw [h, roundDouble_eq (-q) m e he h1 h2 hm]

/-- The rounding of an exact square root, from bounds on the squares. -/
theorem roundDouble_sqrt_eq (sqrt : α → α) (hs : IsSqrt sqrt) (x : α) (m e : Int)
    (he : -1074 ≤ e) (hx : 0 ≤ x) (h1 : (2 : α) ^ (52 + e) * (2 : α) ^ (52 + e) ≤ x)
    (h2 : x < (2 : α) ^ (53 + e) * (2 : α) ^ (53 + e))
    (hlo : (((m : α) - 1 / 2) * (2 : α) ^ e) * (((m : α) - 1 / 2) * (2 : α) ^ e) < x)
    (hhi : x < (((m : α) + 1 / 2) * (2 : α) ^ e) * (((m : α) + 1 / 2) * (2 : α) ^ e))
    (hm : (0 : α) ≤ (m : α) + 1 / 2) :
    roundDouble (sqrt x) = (m : α) * (2 : α) ^ e := by
  have hpe : (0 : α) < (2 : α) ^ e := by positivity
  obtain ⟨h0, hsq⟩ := hs x hx
  have hb1 : (2 : α) ^ (52 + e) ≤ sqrt x := by
    by_contra hc
    have hlt := not_le.mp hc
    have := mul_self_lt_mul_self h0 hlt
    rw [hsq] at this
    exact absurd h1 (not_le.mpr this)
  have hb2 : sqrt x < (2 : α) ^ (53 + e) :=
    sqrt_lt_of_lt_sq sqrt hs x _ hx (by positivity) h2
  have hl : ((m : α) - 1 / 2) * (2 : α) ^ e < sqrt x := lt_sqrt_of_sq_lt sqrt hs x _ hx hlo
  have hh : sqrt x < ((m : α) + 1 / 2) * (2 : α) ^ e :=
    sqrt_lt_of_lt_sq sqrt hs x _ hx (mul_nonneg hm (le_of_lt hpe)) hhi
  apply roundDouble_eq _ m e he hb1 hb2
  rw [abs_lt]
  constructor
  · rw [lt_sub_iff_add_lt, lt_div_iff₀ hpe]
    calc (-(1 / 2) + (m : α)) * (2 : α) ^ e = ((m : α) - 1 / 2) * (2 : α) ^ e := by ring
      _ < sqrt x := hl
  · rw [sub_lt_iff_lt_add, div_lt_iff₀ hpe]
    calc sqrt x < ((m : α) + 1 / 2) * (2 : α) ^ e := hh
      _ = (1 / 2 + (m : α)) * (2 : α) ^ e := by ring

/-- A computed distance that is not zero is at least `2^-537`. -/
theorem distanceDouble_ge (sqrt : α → α) (hs : IsSqrt sqrt) (a b : Body α)
    (hd : distanceDouble sqrt a b ≠ 0) : (2 : α) ^ (-537 : Int) ≤ distanceDouble sqrt a b := by
  unfold distanceDouble fsqrt at hd ⊢
  have hp1 : 0 ≤ fpow (fsub a.x b.x) 2 := roundDouble_nonneg _ (sq_nonneg _)
  have hp2 : 0 ≤ fpow (fsub a.y b.y) 2 := roundDouble_nonneg _ (sq_nonneg _)
  have hsum : 0 ≤ fpow (fsub a.x b.x) 2 + fpow (fsub a.y b.y) 2 := add_nonneg hp1 hp2
  have hs0 : 0 ≤ fadd (fpow (fsub a.x b.x) 2) (fpow (fsub a.y b.y) 2) :=
    roundDouble_nonneg _ hsum
  have hne : fadd (fpow (fsub a.x b.x) 2) (fpow (fsub a.y b.y) 2) ≠ 0 := by
    intro h0
    rw [h0, sqrt_zero_of_isSqrt sqrt hs, roundDouble_zero] at hd
    exact hd rfl
  have hge : (2 : α) ^ (-1074 : Int) ≤ fadd (fpow (fsub a.x b.x) 2) (fpow (fsub a.y b.y) 2) :=
    roundDouble_ge_least _ hsum hne
  obtain ⟨hr0, hr1⟩ := hs _ hs0
  apply two_zpow_le_roundDouble _ _ (by norm_num)
  by_contra hlt
  have hlt' := not_le.mp hlt
  have hsq : sqrt (fadd (fpow (fsub a.x b.x) 2) (fpow (fsub a.y b.y) 2)) *
      sqrt (fadd (fpow (fsub a.x b.x) 2) (fpow (fsub a.y b.y) 2)) <
      (2 : α) ^ (-537 : Int) * (2 : α) ^ (-537 : Int) :=
    mul_self_lt_mul_self hr0 hlt'
  have h2 : (2 : α) ^ (-537 : Int) * (2 : α) ^ (-537 : Int) = (2 : α) ^ (-1074 : Int) := by
    rw [← zpow_add₀ (by norm_num : (2 : α) ≠ 0)]; norm_num
  rw [hr1, h2] at hsq
  exact absurd hge (not_le.mpr hsq)

/-- The square of a double of magnitude at least `2^-537` does not underflow. -/
theorem fpow_two_ne_zero (x : α) (hx : (2 : α) ^ (-537 : Int) ≤ x) : fpow x 2 ≠ 0 := by
  have hpos : (0 : α) < (2 : α) ^ (-537 : Int) := by positivity
  have hsq : (2 : α) ^ (-1074 : Int) ≤ x ^ 2 := by
    have h2 : (2 : α) ^ (-537 : Int) * (2 : α) ^ (-537 : Int) = (2 : α) ^ (-1074 : Int) := by
      rw [← zpow_add₀ (by norm_num : (2 : α) ≠ 0)]; norm_num
    rw [← h2, sq]
    exact mul_le_mul hx hx (le_of_lt hpos) (le_trans (le_of_lt hpos) hx)
  have h := two_zpow_le_roundDouble (x ^ 2) (-1074) (le_refl _) hsq
  have hpos2 : (0 : α) < (2 : α) ^ (-1074 : Int) := by positivity
  exact ne_of_gt (lt_of_lt_of_le hpos2 h)

/-- The state of the concrete scenario before the `checkEdges` calls, on
doubles: every rounding of lines 73-92 evaluated. -/
theorem scenario_stepGravityDouble (sqrt : α → α) (hs : IsSqrt sqrt) :
    stepGravityDouble sqrt (scenarioA : Body α) scenarioB =
      (⟨(201 / 2), (205 / 2), 18, (5639831408490563 / 1125899906842624), (7039392812121527 / 281474976710656), 100⟩,
        ⟨(601 / 2), (595 / 2), 8, (5526180791438687 / 1125899906842624), (-(1765514590329417 / 70368744177664)), 10⟩) := by
  have e0 : roundDouble (1 / 10 : α) = (3602879701896397 / 36028797018963968) :=
    (roundDouble_eq _ 7205759403792794 (-56) (by norm_num) (by norm_num) (by norm_num)
      (by rw [abs_lt]; constructor <;> norm_num)).trans (by norm_num)
  have e1 : roundDouble (5 * (3602879701896397 / 36028797018963968) : α) = (1 / 2) :=
    (roundDouble_eq _ 4503599627370496 (-53) (by norm_num) (by norm_num) (by norm_num)
      (by rw [abs_lt]; constructor <;> norm_num)).trans (by norm_num)
  have e2 : roundDouble (100 + (1 / 2) : α) = (201 / 2) :=
    (roundDouble_eq _ 7072058789855232 (-46) (by norm_num) (by norm_num) (by norm_num)
      (by rw [abs_lt]; constructor <;> norm_num)).trans (by norm_num)
  have e3 : roundDouble (25 * (3602879701896397 / 36028797018963968) : α) = (5 / 2) :=
    (roundDouble_eq _ 5629499534213120 (-51) (by norm_num) (by norm_num) (by norm_num)
      (by rw [abs_lt]; constructor <;> norm_num)).trans (by norm_num)
  have e4 : roundDouble (100 + (5 / 2) : α) = (205 / 2) :=
    (roundDouble_eq _ 7212796278210560 (-46) (by norm_num) (by norm_num) (by norm_num)
      (by rw [abs_lt]; constructor <;> norm_num)).trans (by norm_num)
  have e5 : roundDouble (300 + (1 / 2) : α) = (601 / 2) :=
    (roundDouble_eq _ 5286451906347008 (-44) (by norm_num) (by norm_num) (by norm_num)
      (by rw [abs_lt]; constructor <;> norm_num)).trans (by norm_num)
  have e6 : roundDouble ((-25) * (3602879701896397 / 36028797018963968) : α) = (-(5 / 2)) :=
    (roundDouble_eq_of_neg _ 5629499534213120 (-51) (by norm_num) (by norm_num) (by norm_num)
      (by rw [abs_lt]; constructor <;> norm_num)).trans (by norm_num)
  have e7 : roundDouble (300 + (-(5 / 2)) : α) = (595 / 2) :=
    (roundDouble_eq _ 5233675348213760 (-44) (by norm_num) (by norm_num) (by norm_num)
      (by rw [abs_lt]; constructor <;> norm_num)).trans (by norm_num)
  have e8 : roundDouble ((201 / 2) - (601 / 2) : α) = (-200) :=
    (roundDouble_eq_of_neg _ 7036874417766400 (-45) (by norm_num) (by norm_num) (by norm_num)
      (by rw [abs_lt]; constructor <;> norm_num)).trans (by norm_num)
  have e9 : roundDouble ((205 / 2) - (595 / 2) : α) = (-195) :=
    (roundDouble_eq_of_neg _ 6860952557322240 (-45) (by norm_num) (by norm_num) (by norm_num)
      (by rw [abs_lt]; constructor <;> norm_num)).trans (by norm_num)
  have e10 : roundDouble ((-200) ^ 2 : α) = 40000 :=
    (roundDouble_eq _ 5497558138880000 (-37) (by norm_num) (by norm_num) (by norm_num)
      (by rw [abs_lt]; constructor <;> norm_num)).trans (by norm_num)
  have e11 : roundDouble ((-195) ^ 2 : α) = 38025 :=
    (roundDouble_eq _ 5226116205772800 (-37) (by norm_num) (by norm_num) (by norm_num)
      (by rw [abs_lt]; constructor <;> norm_num)).trans (by norm_num)
  have e12 : roundDouble (40000 + 38025 : α) = 78025 :=
    (roundDouble_eq _ 5361837172326400 (-36) (by norm_num) (by norm_num) (by norm_num)
      (by rw [abs_lt]; constructor <;> norm_num)).trans (by norm_num)
  have e13 : roundDouble (sqrt 78025) = ((4914017489927203 / 17592186044416) : α) :=
    (roundDouble_sqrt_eq sqrt hs _ 4914017489927203 (-44) (by norm_num) (by norm_num) (by norm_num)
      (by norm_num) (by norm_num) (by norm_num) (by norm_num)).trans (by norm_num)
  have e14 : roundDouble ((601 / 2) - (201 / 2) : α) = 200 :=
    (roundDouble_eq _ 7036874417766400 (-45) (by norm_num) (by norm_num) (by norm_num)
      (by rw [abs_lt]; constructor <;> norm_num)).trans (by norm_num)
  have e15 : roundDouble (200 / (4914017489927203 / 17592186044416) : α) = (3224577961990039 / 4503599627370496) :=
    (roundDouble_eq _ 6449155923980078 (-53) (by norm_num) (by norm_num) (by norm_num)
      (by rw [abs_lt]; constructor <;> norm_num)).trans (by norm_num)
  have e16 : roundDouble ((595 / 2) - (205 / 2) : α) = 195 :=
    (roundDouble_eq _ 6860952557322240 (-45) (by norm_num) (by norm_num) (by norm_num)
      (by rw [abs_lt]; constructor <;> norm_num)).trans (by norm_num)
  have e17 : roundDouble (195 / (4914017489927203 / 17592186044416) : α) = (12281107472423 / 17592186044416) :=
    (roundDouble_eq _ 6287927025880576 (-53) (by norm_num) (by norm_num) (by norm_num)
      (by rw [abs_lt]; constructor <;> norm_num)).trans (by norm_num)
  have e18 : roundDouble ((4914017489927203 / 17592186044416) ^ 2 : α) = 78025 :=
    (roundDouble_eq _ 5361837172326400 (-36) (by norm_num) (by norm_num) (by norm_num)
      (by rw [abs_lt]; constructor <;> norm_num)).trans (by norm_num)
  have e19 : roundDouble (100 / 78025 : α) = (5910523573761471 / 4611686018427387904) :=
    (roundDouble_eq _ 5910523573761471 (-62) (by norm_num) (by norm_num) (by norm_num)
      (by rw [abs_lt]; constructor <;> norm_num)).trans (by norm_num)
  have e20 : roundDouble (18 + 8 : α) = 26 :=
    (roundDouble_eq _ 7318349394477056 (-48) (by norm_num) (by norm_num) (by norm_num)
      (by rw [abs_lt]; constructor <;> norm_num)).trans (by norm_num)
  have e21 : roundDouble ((5910523573761471 / 4611686018427387904) * (3224577961990039 / 4503599627370496) : α) = (1057983926010189 / 1152921504606846976) :=
    (roundDouble_eq _ 8463871408081512 (-63) (by norm_num) (by norm_num) (by norm_num)
      (by rw [abs_lt]; constructor <;> norm_num)).trans (by norm_num)
  have e22 : roundDouble ((5910523573761471 / 4611686018427387904) * (12281107472423 / 17592186044416) : α) = (4126137311439737 / 4611686018427387904) :=
    (roundDouble_eq _ 8252274622879474 (-63) (by norm_num) (by norm_num) (by norm_num)
      (by rw [abs_lt]; constructor <;> norm_num)).trans (by norm_num)
  have e23 : roundDouble ((1057983926010189 / 1152921504606846976) * 10 : α) = (5289919630050945 / 576460752303423488) :=
    (roundDouble_eq _ 5289919630050945 (-59) (by norm_num) (by norm_num) (by norm_num)
      (by rw [abs_lt]; constructor <;> norm_num)).trans (by norm_num)
  have e24 : roundDouble (5 + (5289919630050945 / 576460752303423488) : α) = (5639831408490563 / 1125899906842624) :=
    (roundDouble_eq _ 5639831408490563 (-50) (by norm_num) (by norm_num) (by norm_num)
      (by rw [abs_lt]; constructor <;> norm_num)).trans (by norm_num)
  have e25 : roundDouble ((4126137311439737 / 4611686018427387904) * 10 : α) = (5157671639299671 / 576460752303423488) :=
    (roundDouble_eq _ 5157671639299671 (-59) (by norm_num) (by norm_num) (by norm_num)
      (by rw [abs_lt]; constructor <;> norm_num)).trans (by norm_num)
  have e26 : roundDouble (25 + (5157671639299671 / 576460752303423488) : α) = (7039392812121527 / 281474976710656) :=
    (roundDouble_eq _ 7039392812121527 (-48) (by norm_num) (by norm_num) (by norm_num)
      (by rw [abs_lt]; constructor <;> norm_num)).trans (by norm_num)
  have e27 : roundDouble ((-(1057983926010189 / 1152921504606846976)) * 100 : α) = (-(6612399537563681 / 72057594037927936)) :=
    (roundDouble_eq_of_neg _ 6612399537563681 (-56) (by norm_num) (by norm_num) (by norm_num)
      (by rw [abs_lt]; constructor <;> norm_num)).trans (by norm_num)
  have e28 : roundDouble (5 + (-(6612399537563681 / 72057594037927936)) : α) = (5526180791438687 / 1125899906842624) :=
    (roundDouble_eq _ 5526180791438687 (-50) (by norm_num) (by norm_num) (by norm_num)
      (by rw [abs_lt]; constructor <;> norm_num)).trans (by norm_num)
  have e29 : roundDouble ((-(4126137311439737 / 4611686018427387904)) * 100 : α) = (-(6447089549124589 / 72057594037927936)) :=
    (roundDouble_eq_of_neg _ 6447089549124589 (-56) (by norm_num) (by norm_num) (by norm_num)
      (by rw [abs_lt]; constructor <;> norm_num)).trans (by norm_num)
  have e30 : roundDouble ((-25) + (-(6447089549124589 / 72057594037927936)) : α) = (-(1765514590329417 / 70368744177664)) :=
    (roundDouble_eq_of_neg _ 7062058361317668 (-48) (by norm_num) (by norm_num) (by norm_num)
      (by rw [abs_lt]; constructor <;> norm_num)).trans (by norm_num)
  have hfar : ¬ (((4914017489927203 / 17592186044416) : α) ≤ 26) := by norm_num
  simp only [stepGravityDouble, gravityDouble, grav_fDouble, distanceDouble, advanceDouble,
    scenarioA, scenarioB, fadd, fsub, fmul, fdiv, fsqrt, fpow, DELTA_T_double]
  rw [e0, e1, e2, e3, e4, e5, e6, e7, e8, e9, e10, e11, e12, e13, e14, e15, e16, e17, e18, e19, e20]
  rw [if_neg hfar]
  rw [e21, e22, e23, e24, e25, e26, e27, e28, e29, e30]

theorem scenario_noBounceDouble (sqrt : α → α) (hs : IsSqrt sqrt) :
    noBounceDouble (stepGravityDouble sqrt (scenarioA : Body α) scenarioB).1 ∧
      noBounceDouble (stepGravityDouble sqrt (scenarioA : Body α) scenarioB).2 := by
  have e31 : roundDouble ((201 / 2) + 18 : α) = (237 / 2) :=
    (roundDouble_eq _ 8338696185053184 (-46) (by norm_num) (by norm_num) (by norm_num)
      (by rw [abs_lt]; constructor <;> norm_num)).trans (by norm_num)
  have e32 : roundDouble ((205 / 2) + 18 : α) = (241 / 2) :=
    (roundDouble_eq _ 8479433673408512 (-46) (by norm_num) (by norm_num) (by norm_num)
      (by rw [abs_lt]; constructor <;> norm_num)).trans (by norm_num)
  have e33 : roundDouble ((205 / 2) - 18 : α) = (169 / 2) :=
    (roundDouble_eq _ 5946158883012608 (-46) (by norm_num) (by norm_num) (by norm_num)
      (by rw [abs_lt]; constructor <;> norm_num)).trans (by norm_num)
  have e34 : roundDouble ((201 / 2) - 18 : α) = (165 / 2) :=
    (roundDouble_eq _ 5805421394657280 (-46) (by norm_num) (by norm_num) (by norm_num)
      (by rw [abs_lt]; constructor <;> norm_num)).trans (by norm_num)
  have e35 : roundDouble ((601 / 2) + 8 : α) = (617 / 2) :=
    (roundDouble_eq _ 5427189394702336 (-44) (by norm_num) (by norm_num) (by norm_num)
      (by rw [abs_lt]; constructor <;> norm_num)).trans (by norm_num)
  have e36 : roundDouble ((595 / 2) + 8 : α) = (611 / 2) :=
    (roundDouble_eq _ 5374412836569088 (-44) (by norm_num) (by norm_num) (by norm_num)
      (by rw [abs_lt]; constructor <;> norm_num)).trans (by norm_num)
  have e37 : roundDouble ((595 / 2) - 8 : α) = (579 / 2) :=
    (roundDouble_eq _ 5092937859858432 (-44) (by norm_num) (by norm_num) (by norm_num)
      (by rw [abs_lt]; constructor <;> norm_num)).trans (by norm_num)
  have e38 : roundDouble ((601 / 2) - 8 : α) = (585 / 2) :=
    (roundDouble_eq _ 5145714417991680 (-44) (by norm_num) (by norm_num) (by norm_num)
      (by rw [abs_lt]; constructor <;> norm_num)).trans (by norm_num)
  rw [scenario_stepGravityDouble sqrt hs]
  simp only [noBounceDouble, fadd, fsub, SCREEN_WIDTH, SCREEN_HEIGHT]
  rw [e31, e32, e33, e34, e35, e36, e37, e38]
  norm_num

/-- The distance of the concrete scenario computed at line 79, on doubles. -/
theorem scenario_distanceDouble (sqrt : α → α) (hs : IsSqrt sqrt) :
    distanceDouble sqrt (advanceDouble (scenarioA : Body α)) (advanceDouble scenarioB) =
      (4914017489927203 / 17592186044416) := by
  have e0 : roundDouble (1 / 10 : α) = (3602879701896397 / 36028797018963968) :=
    (roundDouble_eq _ 7205759403792794 (-56) (by norm_num) (by norm_num) (by norm_num)
      (by rw [abs_lt]; constructor <;> norm_num)).trans (by norm_num)
  have e1 : roundDouble (5 * (3602879701896397 / 36028797018963968) : α) = (1 / 2) :=
    (roundDouble_eq _ 4503599627370496 (-53) (by norm_num) (by norm_num) (by norm_num)
      (by rw [abs_lt]; constructor <;> norm_num)).trans (by norm_num)
  have e2 : roundDouble (100 + (1 / 2) : α) = (201 / 2) :=
    (roundDouble_eq _ 7072058789855232 (-46) (by norm_num) (by norm_num) (by norm_num)
      (by rw [abs_lt]; constructor <;> norm_num)).trans (by norm_num)
  have e3 : roundDouble (25 * (3602879701896397 / 36028797018963968) : α) = (5 / 2) :=
    (roundDouble_eq _ 5629499534213120 (-51) (by norm_num) (by norm_num) (by norm_num)
      (by rw [abs_lt]; constructor <;> norm_num)).trans (by norm_num)
  have e4 : roundDouble (100 + (5 / 2) : α) = (205 / 2) :=
    (roundDouble_eq _ 7212796278210560 (-46) (by norm_num) (by norm_num) (by norm_num)
      (by rw [abs_lt]; constructor <;> norm_num)).trans (by norm_num)
  have e5 : roundDouble (300 + (1 / 2) : α) = (601 / 2) :=
    (roundDouble_eq _ 5286451906347008 (-44) (by norm_num) (by norm_num) (by norm_num)
      (by rw [abs_lt]; constructor <;> norm_num)).trans (by norm_num)
  have e6 : roundDouble ((-25) * (3602879701896397 / 36028797018963968) : α) = (-(5 / 2)) :=
    (roundDouble_eq_of_neg _ 5629499534213120 (-51) (by norm_num) (by norm_num) (by norm_num)
      (by rw [abs_lt]; constructor <;> norm_num)).trans (by norm_num)
  have e7 : roundDouble (300 + (-(5 / 2)) : α) = (595 / 2) :=
    (roundDouble_eq _ 5233675348213760 (-44) (by norm_num) (by norm_num) (by norm_num)
      (by rw [abs_lt]; constructor <;> norm_num)).trans (by norm_num)
  have e8 : roundDouble ((201 / 2) - (601 / 2) : α) = (-200) :=
    (roundDouble_eq_of_neg _ 7036874417766400 (-45) (by norm_num) (by norm_num) (by norm_num)
      (by rw [abs_lt]; constructor <;> norm_num)).trans (by norm_num)
  have e9 : roundDouble ((205 / 2) - (595 / 2) : α) = (-195) :=
    (roundDouble_eq_of_neg _ 6860952557322240 (-45) (by norm_num) (by norm_num) (by norm_num)
      (by rw [abs_lt]; constructor <;> norm_num)).trans (by norm_num)
  have e10 : roundDouble ((-200) ^ 2 : α) = 40000 :=
    (roundDouble_eq _ 5497558138880000 (-37) (by norm_num) (by norm_num) (by norm_num)
      (by rw [abs_lt]; constructor <;> norm_num)).trans (by norm_num)
  have e11 : roundDouble ((-195) ^ 2 : α) = 38025 :=
    (roundDouble_eq _ 5226116205772800 (-37) (by norm_num) (by norm_num) (by norm_num)
      (by rw [abs_lt]; constructor <;> norm_num)).trans (by norm_num)
  have e12 : roundDouble (40000 + 38025 : α) = 78025 :=
    (roundDouble_eq _ 5361837172326400 (-36) (by norm_num) (by norm_num) (by norm_num)
      (by rw [abs_lt]; constructor <;> norm_num)).trans (by norm_num)
  have e13 : roundDouble (sqrt 78025) = ((4914017489927203 / 17592186044416) : α) :=
    (roundDouble_sqrt_eq sqrt hs _ 4914017489927203 (-44) (by norm_num) (by norm_num) (by norm_num)
      (by norm_num) (by norm_num) (by norm_num) (by norm_num)).trans (by norm_num)
  simp only [distanceDouble, advanceDouble, scenarioA, scenarioB, fadd, fsub, fmul, fsqrt, fpow,
    DELTA_T_double]
  rw [e0, e1, e2, e3, e4, e5, e6, e7, e8, e9, e10, e11, e12, e13]

theorem checkEdgesDouble_of_noBounceDouble (body : Body α) (h : noBounceDouble body) :
    checkEdgesDouble body = body := by
  obtain ⟨h1, h2, h3, h4⟩ := h
  simp only [checkEdgesDouble, if_neg h1, if_neg h2, if_neg h3, if_neg h4]

/-- One call of `step` on the concrete scenario, on doubles. -/
theorem scenario_stepDouble (sqrt : α → α) (hs : IsSqrt sqrt) :
    stepDouble sqrt (scenarioA : Body α) scenarioB = stepGravityDouble sqrt scenarioA scenarioB := by
  obtain ⟨h1, h2⟩ := scenario_noBounceDouble sqrt hs
  simp only [stepDouble, checkEdgesDouble_of_noBounceDouble _ h1,
    checkEdgesDouble_of_noBounceDouble _ h2]

/-- The positions of the two bodies `tinyGapA`, `tinyGapB` after the advance and
the distance computed at line 79, on doubles: the squares of the coordinate
differences underflow. -/
theorem tinyGap_distanceDouble :
    (advanceDouble (tinyGapA : Body ℝ)).x = 0 ∧
      (advanceDouble (tinyGapB : Body ℝ)).x = (1 / 2) ^ 600 ∧
      distanceDouble Real.sqrt (advanceDouble (tinyGapA : Body ℝ)) (advanceDouble tinyGapB) = 0 := by
  have z1 : ∀ x : ℝ, roundDouble (0 * x) = 0 := fun x => by rw [zero_mul, roundDouble_zero]
  have z2 : roundDouble ((0 : ℝ) + 0) = 0 := by rw [add_zero, roundDouble_zero]
  have z3 : roundDouble ((1 / 2 : ℝ) ^ 600 + 0) = (1 / 2) ^ 600 :=
    (roundDouble_eq _ 4503599627370496 (-652) (by norm_num) (by norm_num) (by norm_num)
      (by rw [abs_lt]; constructor <;> norm_num)).trans (by norm_num)
  have z4 : roundDouble ((0 : ℝ) - (1 / 2) ^ 600) = -(1 / 2) ^ 600 :=
    (roundDouble_eq_of_neg _ 4503599627370496 (-652) (by norm_num) (by norm_num) (by norm_num)
      (by rw [abs_lt]; constructor <;> norm_num)).trans (by norm_num)
  have z5 : roundDouble ((-(1 / 2 : ℝ) ^ 600) ^ 2) = 0 :=
    roundDouble_underflow _ (sq_nonneg _) (by norm_num)
  have z6 : roundDouble ((0 : ℝ) - 0) = 0 := by rw [sub_zero, roundDouble_zero]
  have z7 : roundDouble ((0 : ℝ) ^ 2) = 0 := by
    rw [zero_pow (by norm_num), roundDouble_zero]
  have z8 : roundDouble (Real.sqrt 0) = 0 := by rw [Real.sqrt_zero, roundDouble_zero]
  simp only [distanceDouble, advanceDouble, tinyGapA, tinyGapB, fadd, fsub, fmul, fsqrt, fpow]
  rw [z1, z2, z3, z4, z5, z6, z7, z2, z8]
  exact ⟨rfl, rfl, rfl⟩

end Rounding

end Lemmas

/-! ## The claims -/

section Claims

variable {α : Type} [LinearOrderedField α]

/-- C1: for every 300-entry buffer `t` and every body `b`, the buffer after
`UpdateTrajectory(t, b)` has exactly 300 entries, its entry `i` is entry `i + 1`
of `t` for every `i < 299`, and its entry 299 is `b`, whatever the
uninitialised local array holds. -/
theorem UpdateTrajectory_shift (uninit : Nat → Body α) (t : List (Body α)) (b : Body α)
    (ht : t.length = 300) :
    (UpdateTrajectory uninit t b).length = 300 ∧
      (∀ i, i < 299 → (UpdateTrajectory uninit t b)[i]? = t[i + 1]?) ∧
      (UpdateTrajectory uninit t b)[299]? = some b := by
  have hl : t.tail.length = 299 := by rw [List.length_tail, ht]
  rw [UpdateTrajectory_eq uninit t b ht]
  refine ⟨by rw [List.length_append, hl]; rfl, ?_, ?_⟩
  · intro i hi
    rw [List.getElem?_append_left (by omega), List.getElem?_tail]
  · rw [List.getElem?_append_right (by omega), hl]; rfl

/-- Witness of C1 on the all-zero buffer `main` starts from. -/
theorem UpdateTrajectory_shift_witness :
    (List.replicate 300 (⟨0, 0, 0, 0, 0, 0⟩ : Body ℚ)).length = 300 ∧
      (UpdateTrajectory (fun _ => default) (List.replicate 300 (⟨0, 0, 0, 0, 0, 0⟩ : Body ℚ))
        ⟨100, 100, 18, 5, 25, 100⟩)[299]? = some ⟨100, 100, 18, 5, 25, 100⟩ :=
  ⟨List.length_replicate _ _,
    (UpdateTrajectory_shift (fun _ => default) _ _ (List.length_replicate _ _)).2.2⟩

/-- C2, as amended: in the main loop both trajectory buffers have exactly 300
entries after every tick, and from the 300th tick on each buffer holds, oldest
first, the 300 states of its body most recently passed to `UpdateTrajectory`,
the newest as passed and the 299 older ones with their radius overwritten by
`TRAJ_WIDTH` (all other fields as passed). -/
theorem mainLoop_trajectory [FloorRing α] (sqrt : α → α) (uninit uninit2 : Nat → Nat → Body α)
    (s : Sim α) (h1 : s.trajectory.length = 300) (h2 : s.trajectory2.length = 300) (n : Nat) :
    (mainLoop sqrt uninit uninit2 s n).trajectory.length = 300 ∧
      (mainLoop sqrt uninit uninit2 s n).trajectory2.length = 300 ∧
      (300 ≤ n →
        (mainLoop sqrt uninit uninit2 s n).trajectory =
          (List.range 299).map (fun i =>
            setTrajWidth (mainLoop sqrt uninit uninit2 s (n - 299 + i)).body)
            ++ [(mainLoop sqrt uninit uninit2 s n).body]) ∧
      (300 ≤ n →
        (mainLoop sqrt uninit uninit2 s n).trajectory2 =
          (List.range 299).map (fun i =>
            setTrajWidth (mainLoop sqrt uninit uninit2 s (n - 299 + i)).body2)
            ++ [(mainLoop sqrt uninit uninit2 s n).body2]) := by
  have hs1 : ∀ k, (mainLoop sqrt uninit uninit2 s k).trajectory.length = 300 →
      (mainLoop sqrt uninit uninit2 s (k + 1)).trajectory =
        ((mainLoop sqrt uninit uninit2 s k).trajectory.map setTrajWidth).tail
          ++ [(mainLoop sqrt uninit uninit2 s (k + 1)).body] :=
    fun k hk => tick_trajectory sqrt _ _ _ hk
  have hs2 : ∀ k, (mainLoop sqrt uninit uninit2 s k).trajectory2.length = 300 →
      (mainLoop sqrt uninit uninit2 s (k + 1)).trajectory2 =
        ((mainLoop sqrt uninit uninit2 s k).trajectory2.map setTrajWidth).tail
          ++ [(mainLoop sqrt uninit uninit2 s (k + 1)).body2] :=
    fun k hk => tick_trajectory2 sqrt _ _ _ hk
  exact ⟨(trail_eq setTrajWidth setTrajWidth_idem
      (fun k => (mainLoop sqrt uninit uninit2 s k).trajectory)
      (fun k => (mainLoop sqrt uninit uninit2 s k).body) h1 hs1 n).1,
    (trail_eq setTrajWidth setTrajWidth_idem
      (fun k => (mainLoop sqrt uninit uninit2 s k).trajectory2)
      (fun k => (mainLoop sqrt uninit uninit2 s k).body2) h2 hs2 n).1,
    trail_recent setTrajWidth setTrajWidth_idem
      (fun k => (mainLoop sqrt uninit uninit2 s k).trajectory)
      (fun k => (mainLoop sqrt uninit uninit2 s k).body) h1 hs1 n,
    trail_recent setTrajWidth setTrajWidth_idem
      (fun k => (mainLoop sqrt uninit uninit2 s k).trajectory2)
      (fun k => (mainLoop sqrt uninit uninit2 s k).body2) h2 hs2 n⟩

/-- Witness of C2 (amended): the run of `main` with both random velocities 5,
at tick 300. -/
theorem mainLoop_trajectory_witness :
    (mainInit (5 : ℝ) 5).trajectory.length = 300 ∧
      (mainInit (5 : ℝ) 5).trajectory2.length = 300 ∧
      (mainLoop Real.sqrt (fun _ _ => default) (fun _ _ => default) (mainInit 5 5) 300).trajectory =
        (List.range 299).map (fun i =>
          setTrajWidth (mainLoop Real.sqrt (fun _ _ => default) (fun _ _ => default)
            (mainInit 5 5) (300 - 299 + i)).body)
          ++ [(mainLoop Real.sqrt (fun _ _ => default) (fun _ _ => default)
            (mainInit 5 5) 300).body] :=
  ⟨List.length_replicate _ _, List.length_replicate _ _,
    (mainLoop_trajectory Real.sqrt (fun _ _ => default) (fun _ _ => default) (mainInit 5 5)
      (List.length_replicate _ _) (List.length_replicate _ _) 300).2.2.1 (le_refl 300)⟩

/-- Counterexample to C2 as stated: in the run of `main` with both random
velocities 5, the first buffer after tick 300 is not the list of the 300 bodies
passed to `UpdateTrajectory` in ticks 1 to 300 (its oldest entry has radius 2,
the body passed in tick 1 has radius 18). -/
theorem mainLoop_trajectory_not_snapshots :
    (mainLoop Real.sqrt (fun _ _ => default) (fun _ _ => default) (mainInit 5 5) 300).trajectory ≠
      (List.range 300).map (fun i =>
        (mainLoop Real.sqrt (fun _ _ => default) (fun _ _ => default) (mainInit 5 5) (1 + i)).body) := by
  intro h
  have e := trail_recent setTrajWidth setTrajWidth_idem
    (fun k => (mainLoop Real.sqrt (fun _ _ => default) (fun _ _ => default)
      (mainInit 5 5) k).trajectory)
    (fun k => (mainLoop Real.sqrt (fun _ _ => default) (fun _ _ => default)
      (mainInit 5 5) k).body)
    (List.length_replicate _ _) (fun k hk => tick_trajectory Real.sqrt _ _ _ hk) 300 (le_refl 300)
  simp only [] at e
  rw [e] at h
  have h0 := congrArg (fun l => (l[0]?).map Body.radius) h
  simp only [List.range_succ_eq_map 299, List.range_succ_eq_map 298, List.map_cons,
    List.cons_append, List.getElem?_cons_zero, Option.map_some', Option.some.injEq] at h0
  have hr : (mainLoop Real.sqrt (fun _ _ => default) (fun _ _ => default)
      (mainInit 5 5) 1).body.radius = 18 :=
    (step_radius Real.sqrt _ _).1
  simp only [setTrajWidth, TRAJ_WIDTH] at h0
  rw [hr] at h0
  norm_num at h0

/-- C10: for every initial 300-entry buffer `t` and every list `bs` of `n` bodies
appended one at a time with `UpdateTrajectory`, the buffer still has exactly 300
entries, its last `min n 300` entries are the last `min n 300` bodies of `bs` in
order, and when `n < 300` its first `300 - n` entries are the last `300 - n`
entries of `t` in order. -/
theorem appendAll_fifo (uninit : Nat → Nat → Body α) (t bs : List (Body α))
    (ht : t.length = 300) :
    (appendAll uninit t bs).length = 300 ∧
      (appendAll uninit t bs).drop (300 - min bs.length 300) =
        bs.drop (bs.length - min bs.length 300) ∧
      (bs.length < 300 → (appendAll uninit t bs).take (300 - bs.length) = t.drop bs.length) := by
  rw [appendAll_eq uninit t bs ht]
  refine ⟨?_, ?_, ?_⟩
  · rw [List.length_drop, List.length_append, ht]; omega
  · rw [List.drop_drop]
    rcases Nat.le_total bs.length 300 with h | h
    · have e1 : bs.length + (300 - min bs.length 300) = t.length := by
        rw [ht, Nat.min_eq_left h]; omega
      have e2 : bs.length - min bs.length 300 = 0 := by rw [Nat.min_eq_left h]; omega
      rw [e1, e2, List.drop_left, List.drop_zero]
    · have e1 : bs.length + (300 - min bs.length 300) = t.length + (bs.length - 300) := by
        rw [ht, Nat.min_eq_right h]; omega
      have e2 : bs.length - min bs.length 300 = bs.length - 300 := by rw [Nat.min_eq_right h]
      rw [e1, e2, List.drop_append]
  · intro h
    rw [List.drop_append_of_le_length (by omega),
      List.take_append_of_le_length (by rw [List.length_drop]; omega)]
    exact List.take_of_length_le (by rw [List.length_drop]; omega)

/-- Witness of C10: three bodies appended to the all-zero buffer are its last
three entries. -/
theorem appendAll_fifo_witness :
    (List.replicate 300 (⟨0, 0, 0, 0, 0, 0⟩ : Body ℚ)).length = 300 ∧
      (appendAll (fun _ _ => default) (List.replicate 300 (⟨0, 0, 0, 0, 0, 0⟩ : Body ℚ))
        [⟨1, 2, 18, 5, 25, 100⟩, ⟨3, 4, 18, 5, 25, 100⟩, ⟨5, 6, 18, 5, 25, 100⟩]).drop 297
          = [⟨1, 2, 18, 5, 25, 100⟩, ⟨3, 4, 18, 5, 25, 100⟩, ⟨5, 6, 18, 5, 25, 100⟩] :=
  ⟨List.length_replicate _ _,
    (appendAll_fifo (fun _ _ => default) (List.replicate 300 (⟨0, 0, 0, 0, 0, 0⟩ : Body ℚ))
      [⟨1, 2, 18, 5, 25, 100⟩, ⟨3, 4, 18, 5, 25, 100⟩, ⟨5, 6, 18, 5, 25, 100⟩]
      (List.length_replicate _ _)).2.1⟩

/-- C3: for every pair of bodies with non-negative radii whose centre distance
`d` after the position advance exceeds the sum of the radii, the gravity vector
`(bx, by)` of `step` has Euclidean norm `100 / d^2` and is a positive multiple
of the vector from the first centre to the second; before `checkEdges` the
velocity of the first body has changed by `(bx, by) * mass2` and that of the
second by `-(bx, by) * mass1`, and `step` is `checkEdges` of that state. -/
theorem gravity_inverse_square (sqrt : α → α) (hs : IsSqrt sqrt) (body body2 : Body α)
    (hr : 0 ≤ body.radius) (hr2 : 0 ≤ body2.radius)
    (hd : body.radius + body2.radius < distance sqrt (advance body) (advance body2)) :
    sqrt ((gravity sqrt (advance body) (advance body2)).1 ^ 2 +
        (gravity sqrt (advance body) (advance body2)).2 ^ 2) =
        100 / distance sqrt (advance body) (advance body2) ^ 2 ∧
      (∃ k, 0 < k ∧
        (gravity sqrt (advance body) (advance body2)).1 =
          k * ((advance body2).x - (advance body).x) ∧
        (gravity sqrt (advance body) (advance body2)).2 =
          k * ((advance body2).y - (advance body).y)) ∧
      (stepGravity sqrt body body2).1.v_x =
        body.v_x + (gravity sqrt (advance body) (advance body2)).1 * body2.mass ∧
      (stepGravity sqrt body body2).1.v_y =
        body.v_y + (gravity sqrt (advance body) (advance body2)).2 * body2.mass ∧
      (stepGravity sqrt body body2).2.v_x =
        body2.v_x - (gravity sqrt (advance body) (advance body2)).1 * body.mass ∧
      (stepGravity sqrt body body2).2.v_y =
        body2.v_y - (gravity sqrt (advance body) (advance body2)).2 * body.mass ∧
      step sqrt body body2 =
        (checkEdges (stepGravity sqrt body body2).1, checkEdges (stepGravity sqrt body body2).2) := by
  have hpos : 0 < distance sqrt (advance body) (advance body2) := by linarith
  have hF : grav_f sqrt (advance body) (advance body2) =
      100 / distance sqrt (advance body) (advance body2) ^ 2 := by
    simp only [grav_f, advance_radius, pow, if_neg (not_le.mpr hd)]
  have hFpos : 0 < grav_f sqrt (advance body) (advance body2) := by
    rw [hF]; positivity
  refine ⟨?_, ?_, ?_, ?_, ?_, ?_, rfl⟩
  · rw [gravity_norm sqrt hs _ _ hpos (le_of_lt hFpos), hF]
  · exact ⟨_, div_pos hFpos hpos, gravity_direction sqrt _ _⟩
  · rfl
  · rfl
  · simp only [stepGravity, advance]; ring
  · simp only [stepGravity, advance]; ring

/-- Witness of C3: the concrete scenario, with the real square root. -/
theorem gravity_inverse_square_witness :
    IsSqrt Real.sqrt ∧ 0 ≤ (scenarioA : Body ℝ).radius ∧ 0 ≤ (scenarioB : Body ℝ).radius ∧
      (scenarioA : Body ℝ).radius + (scenarioB : Body ℝ).radius <
        distance Real.sqrt (advance scenarioA) (advance scenarioB) ∧
      Real.sqrt ((gravity Real.sqrt (advance scenarioA) (advance scenarioB)).1 ^ 2 +
        (gravity Real.sqrt (advance scenarioA) (advance scenarioB)).2 ^ 2) =
        100 / distance Real.sqrt (advance scenarioA) (advance scenarioB) ^ 2 :=
  ⟨isSqrt_real, by simp [scenarioA], by simp [scenarioB], scenario_far,
    (gravity_inverse_square Real.sqrt isSqrt_real scenarioA scenarioB (by simp [scenarioA])
      (by simp [scenarioB]) scenario_far).1⟩

/-- C5, as amended: on each axis on which `checkEdges` bounces the body, the
velocity component becomes `-DAMPENING * v` when the body is not wider than the
screen on that axis (`2 * radius <= 900`, resp. `600`); when the far-side test
holds and the body is wider than the screen, the near-side test holds too and
the component becomes `DAMPENING^2 * v`. -/
theorem checkEdges_bounce (body : Body α) :
    ((body.x + body.radius > SCREEN_WIDTH ∨ body.x - body.radius < 0) →
        2 * body.radius ≤ SCREEN_WIDTH → (checkEdges body).v_x = -DAMPENING * body.v_x) ∧
      ((body.y + body.radius > SCREEN_HEIGHT ∨ body.y - body.radius < 0) →
        2 * body.radius ≤ SCREEN_HEIGHT → (checkEdges body).v_y = -DAMPENING * body.v_y) ∧
      (body.x + body.radius > SCREEN_WIDTH → 2 * body.radius > SCREEN_WIDTH →
        (checkEdges body).v_x = DAMPENING ^ 2 * body.v_x) ∧
      (body.y + body.radius > SCREEN_HEIGHT → 2 * body.radius > SCREEN_HEIGHT →
        (checkEdges body).v_y = DAMPENING ^ 2 * body.v_y) := by
  refine ⟨?_, ?_, ?_, ?_⟩
  · intro hb hw
    rw [checkEdges_v_x]
    rcases hb with hb | hb
    · have h2 : ¬ (SCREEN_WIDTH - body.radius - body.radius < 0) := by linarith
      simp only [if_pos hb, if_neg h2]; ring
    · by_cases h1 : body.x + body.radius > SCREEN_WIDTH
      · have h2 : ¬ (SCREEN_WIDTH - body.radius - body.radius < 0) := by linarith
        simp only [if_pos h1, if_neg h2]; ring
      · simp only [if_neg h1, if_pos hb]; ring
  · intro hb hw
    rw [checkEdges_v_y]
    rcases hb with hb | hb
    · have h2 : ¬ (SCREEN_HEIGHT - body.radius - body.radius < 0) := by linarith
      simp only [if_pos hb, if_neg h2]; ring
    · by_cases h1 : body.y + body.radius > SCREEN_HEIGHT
      · have h2 : ¬ (SCREEN_HEIGHT - body.radius - body.radius < 0) := by linarith
        simp only [if_pos h1, if_neg h2]; ring
      · simp only [if_neg h1, if_pos hb]; ring
  · intro hb hw
    have h2 : SCREEN_WIDTH - body.radius - body.radius < 0 := by linarith
    rw [checkEdges_v_x]; simp only [if_pos hb, if_pos h2]; ring
  · intro hb hw
    have h2 : SCREEN_HEIGHT - body.radius - body.radius < 0 := by linarith
    rw [checkEdges_v_y]; simp only [if_pos hb, if_pos h2]; ring

/-- Witness of C5 (amended): a body of radius 18 past the right edge. -/
theorem checkEdges_bounce_witness :
    ((890 : ℚ) + 18 > SCREEN_WIDTH ∨ (890 : ℚ) - 18 < 0) ∧ 2 * (18 : ℚ) ≤ SCREEN_WIDTH ∧
      (checkEdges (⟨890, 500, 18, 3, 4, 100⟩ : Body ℚ)).v_x = -DAMPENING * 3 :=
  ⟨Or.inl (by norm_num [SCREEN_WIDTH]), by norm_num [SCREEN_WIDTH],
    (checkEdges_bounce (⟨890, 500, 18, 3, 4, 100⟩ : Body ℚ)).1
      (Or.inl (by norm_num [SCREEN_WIDTH])) (by norm_num [SCREEN_WIDTH])⟩

/-- Counterexample to C5 as stated: a body of radius 400 at height 500 crosses
the bottom edge, is bounced on the vertical axis, and leaves `checkEdges` with
vertical velocity `1.001^2 * v`, not `-1.001 * v`. -/
theorem checkEdges_double_bounce :
    (⟨450, 500, 400, 3, 4, 100⟩ : Body ℚ).y + (⟨450, 500, 400, 3, 4, 100⟩ : Body ℚ).radius
        > SCREEN_HEIGHT ∧
      (checkEdges (⟨450, 500, 400, 3, 4, 100⟩ : Body ℚ)).v_y ≠
        -DAMPENING * (⟨450, 500, 400, 3, 4, 100⟩ : Body ℚ).v_y ∧
      (checkEdges (⟨450, 500, 400, 3, 4, 100⟩ : Body ℚ)).v_y = 1002001 / 250000 := by
  refine ⟨by norm_num [SCREEN_HEIGHT], ?_, ?_⟩
  · rw [checkEdges_v_y]; norm_num [SCREEN_HEIGHT, DAMPENING]
  · rw [checkEdges_v_y]; norm_num [SCREEN_HEIGHT, DAMPENING]

/-- C6: for every pair of bodies neither of which meets a test of `checkEdges`
after the position advance, `step` leaves each body at
`(x0 + v_x * DELTA_T, y0 + v_y * DELTA_T)` for its own position and velocity
before the step, whatever the other body is and whatever `sqrt` returns. -/
theorem step_position (sqrt : α → α) (body body2 : Body α)
    (h1 : noBounce (advance body)) (h2 : noBounce (advance body2)) :
    (step sqrt body body2).1.x = body.x + body.v_x * DELTA_T ∧
      (step sqrt body body2).1.y = body.y + body.v_y * DELTA_T ∧
      (step sqrt body body2).2.x = body2.x + body2.v_x * DELTA_T ∧
      (step sqrt body body2).2.y = body2.y + body2.v_y * DELTA_T := by
  rw [step_of_noBounce sqrt body body2 h1 h2]
  exact ⟨rfl, rfl, rfl, rfl⟩

/-- Witness of C6: the concrete scenario, with the real square root. -/
theorem step_position_witness :
    noBounce (advance (scenarioA : Body ℝ)) ∧ noBounce (advance (scenarioB : Body ℝ)) ∧
      (step Real.sqrt (scenarioA : Body ℝ) scenarioB).1.x =
        (scenarioA : Body ℝ).x + (scenarioA : Body ℝ).v_x * DELTA_T :=
  ⟨scenario_noBounceA, scenario_noBounceB,
    (step_position Real.sqrt scenarioA scenarioB scenario_noBounceA scenario_noBounceB).1⟩

/-- C7: on the concrete scenario one call of `step` yields the first body at
`(100.5, 102.5)` and the second at `(300.5, 297.5)`, without clamp (the distance
`d = sqrt 78025` after the advance exceeds `18 + 8`) and without edge bounce,
and the velocities `(5 + 10*100*200/(78025*d), 25 + 10*100*195/(78025*d))` and
`(5 - 100*100*200/(78025*d), -25 - 100*100*195/(78025*d))`. -/
theorem step_scenario (sqrt : α → α) (hs : IsSqrt sqrt) :
    step sqrt scenarioA scenarioB =
        (⟨100.5, 102.5, 18, 5 + 10 * 100 * 200 / (78025 * sqrt 78025),
            25 + 10 * 100 * 195 / (78025 * sqrt 78025), 100⟩,
          ⟨300.5, 297.5, 8, 5 - 100 * 100 * 200 / (78025 * sqrt 78025),
            -25 - 100 * 100 * 195 / (78025 * sqrt 78025), 10⟩) ∧
      distance sqrt (advance scenarioA) (advance scenarioB) = sqrt 78025 ∧
      ¬ (distance sqrt (advance scenarioA) (advance scenarioB) ≤
        (scenarioA : Body α).radius + (scenarioB : Body α).radius) ∧
      noBounce (advance (scenarioA : Body α)) ∧ noBounce (advance (scenarioB : Body α)) := by
  have hA : noBounce (advance (scenarioA : Body α)) := by
    simp only [noBounce, advance, scenarioA, SCREEN_WIDTH, SCREEN_HEIGHT, DELTA_T]
    norm_num
  have hB : noBounce (advance (scenarioB : Body α)) := by
    simp only [noBounce, advance, scenarioB, SCREEN_WIDTH, SCREEN_HEIGHT, DELTA_T]
    norm_num
  have hd : distance sqrt (advance (scenarioA : Body α)) (advance scenarioB) = sqrt 78025 := by
    simp only [distance, advance, scenarioA, scenarioB, pow, DELTA_T]
    norm_num
  obtain ⟨h0, hsq⟩ := hs 78025 (by norm_num)
  have hfar : ¬ (sqrt 78025 ≤ (18 : α) + 8) := by
    intro hle
    nlinarith
  have hne : sqrt 78025 ≠ 0 := by
    intro h0'
    rw [h0'] at hsq
    norm_num at hsq
  refine ⟨?_, hd, ?_, hA, hB⟩
  · rw [step_of_noBounce sqrt _ _ hA hB]
    have hg : grav_f sqrt (advance (scenarioA : Body α)) (advance scenarioB) = 100 / 78025 := by
      simp only [grav_f, hd, pow]
      rw [if_neg (by simpa only [advance, scenarioA, scenarioB] using hfar), sq, hsq]
    simp only [stepGravity, gravity, hg, hd]
    simp only [advance, scenarioA, scenarioB, DELTA_T]
    refine Prod.ext ?_ ?_
    · simp only [Body.mk.injEq]
      refine ⟨by norm_num, by norm_num, trivial, ?_, ?_, trivial⟩
      · field_simp; ring
      · field_simp; ring
    · simp only [Body.mk.injEq]
      refine ⟨by norm_num, by norm_num, trivial, ?_, ?_, trivial⟩
      · field_simp; ring
      · field_simp; ring
  · rw [hd]
    simpa only [scenarioA, scenarioB] using hfar

/-- Witness of C7: the statement with the real square root. -/
theorem step_scenario_witness :
    IsSqrt Real.sqrt ∧
      step Real.sqrt scenarioA scenarioB =
        (⟨100.5, 102.5, 18, 5 + 10 * 100 * 200 / (78025 * Real.sqrt 78025),
            25 + 10 * 100 * 195 / (78025 * Real.sqrt 78025), 100⟩,
          ⟨300.5, 297.5, 8, 5 - 100 * 100 * 200 / (78025 * Real.sqrt 78025),
            -25 - 100 * 100 * 195 / (78025 * Real.sqrt 78025), 10⟩) :=
  ⟨isSqrt_real, (step_scenario Real.sqrt isSqrt_real).1⟩

/-- C11: `step` leaves the radius and the mass of both bodies unchanged, so
after any number of steps the radii are the initial ones and stay positive when
they were, and `checkEdges` leaves the radius and the mass of its body
unchanged. -/
theorem step_frame (sqrt : α → α) (body body2 : Body α) :
    ((step sqrt body body2).1.radius = body.radius ∧
        (step sqrt body body2).1.mass = body.mass ∧
        (step sqrt body body2).2.radius = body2.radius ∧
        (step sqrt body body2).2.mass = body2.mass) ∧
      ((checkEdges body).radius = body.radius ∧ (checkEdges body).mass = body.mass) ∧
      (0 < body.radius → 0 < body2.radius → ∀ n : Nat,
        0 < ((fun p : Body α × Body α => step sqrt p.1 p.2)^[n] (body, body2)).1.radius ∧
          0 < ((fun p : Body α × Body α => step sqrt p.1 p.2)^[n] (body, body2)).2.radius) := by
  refine ⟨⟨(step_radius sqrt _ _).1, (step_mass sqrt _ _).1, (step_radius sqrt _ _).2,
    (step_mass sqrt _ _).2⟩, ⟨checkEdges_radius _, checkEdges_mass _⟩, ?_⟩
  intro h1 h2 n
  rw [(iterate_step_radius sqrt body body2 n).1, (iterate_step_radius sqrt body body2 n).2]
  exact ⟨h1, h2⟩

/-- Witness of C11: the concrete scenario after 1000 steps, with the real
square root. -/
theorem step_frame_witness :
    0 < (scenarioA : Body ℝ).radius ∧ 0 < (scenarioB : Body ℝ).radius ∧
      0 < ((fun p : Body ℝ × Body ℝ => step Real.sqrt p.1 p.2)^[1000]
          (scenarioA, scenarioB)).1.radius ∧
      0 < ((fun p : Body ℝ × Body ℝ => step Real.sqrt p.1 p.2)^[1000]
          (scenarioA, scenarioB)).2.radius :=
  ⟨by simp [scenarioA], by simp [scenarioB],
    (step_frame Real.sqrt scenarioA scenarioB).2.2 (by simp [scenarioA]) (by simp [scenarioB])
      1000⟩

/-- C15: for every body with `radius >= 0`, `2 * radius <= 900` and
`2 * radius <= 600`, whatever its position and velocity, after `checkEdges`
`radius <= x <= 900 - radius` and `radius <= y <= 600 - radius`; hence after
`step` both bodies lie inside the screen when both satisfy the precondition. -/
theorem checkEdges_in_screen (sqrt : α → α) (body body2 : Body α)
    (hr : 0 ≤ body.radius) (hw : 2 * body.radius ≤ 900) (hh : 2 * body.radius ≤ 600)
    (hr2 : 0 ≤ body2.radius) (hw2 : 2 * body2.radius ≤ 900) (hh2 : 2 * body2.radius ≤ 600) :
    (body.radius ≤ (checkEdges body).x ∧ (checkEdges body).x ≤ 900 - body.radius ∧
        body.radius ≤ (checkEdges body).y ∧ (checkEdges body).y ≤ 600 - body.radius) ∧
      (body.radius ≤ (step sqrt body body2).1.x ∧
        (step sqrt body body2).1.x ≤ 900 - body.radius ∧
        body.radius ≤ (step sqrt body body2).1.y ∧
        (step sqrt body body2).1.y ≤ 600 - body.radius) ∧
      (body2.radius ≤ (step sqrt body body2).2.x ∧
        (step sqrt body body2).2.x ≤ 900 - body2.radius ∧
        body2.radius ≤ (step sqrt body body2).2.y ∧
        (step sqrt body body2).2.y ≤ 600 - body2.radius) := by
  have _ := hr
  have _ := hr2
  exact ⟨checkEdges_inside body hw hh,
    checkEdges_inside (stepGravity sqrt body body2).1 hw hh,
    checkEdges_inside (stepGravity sqrt body body2).2 hw2 hh2⟩

/-- Witness of C15: the concrete scenario, with the real square root. -/
theorem checkEdges_in_screen_witness :
    (0 ≤ (scenarioA : Body ℝ).radius ∧ 2 * (scenarioA : Body ℝ).radius ≤ 900 ∧
        2 * (scenarioA : Body ℝ).radius ≤ 600) ∧
      (0 ≤ (scenarioB : Body ℝ).radius ∧ 2 * (scenarioB : Body ℝ).radius ≤ 900 ∧
        2 * (scenarioB : Body ℝ).radius ≤ 600) ∧
      (scenarioA : Body ℝ).radius ≤ (step Real.sqrt scenarioA scenarioB).1.x ∧
      (step Real.sqrt (scenarioA : Body ℝ) scenarioB).1.x ≤ 900 - (scenarioA : Body ℝ).radius :=
  ⟨⟨by norm_num [scenarioA], by norm_num [scenarioA], by norm_num [scenarioA]⟩,
    ⟨by norm_num [scenarioB], by norm_num [scenarioB], by norm_num [scenarioB]⟩,
    (checkEdges_in_screen Real.sqrt scenarioA scenarioB (by norm_num [scenarioA])
      (by norm_num [scenarioA]) (by norm_num [scenarioA]) (by norm_num [scenarioB])
      (by norm_num [scenarioB]) (by norm_num [scenarioB])).2.1.1,
    (checkEdges_in_screen Real.sqrt scenarioA scenarioB (by norm_num [scenarioA])
      (by norm_num [scenarioA]) (by norm_num [scenarioA]) (by norm_num [scenarioB])
      (by norm_num [scenarioB]) (by norm_num [scenarioB])).2.1.2.1⟩

/-- C16: `step` is symmetric in its two arguments: calling it on the swapped
pair yields the swapped result, for every pair of bodies and every `sqrt`. -/
theorem step_symmetric (sqrt : α → α) (body body2 : Body α) :
    step sqrt body2 body = ((step sqrt body body2).2, (step sqrt body body2).1) := by
  simp only [step, stepGravity_swap sqrt body body2]

/-- C17: for every 300-entry buffer, after `FillTrajectory` the buffer still has
300 entries and its entry `i` is the entry `i` it had before with `radius`
replaced by `TRAJ_WIDTH = 2` and `x`, `y`, `v_x`, `v_y`, `mass` unchanged. -/
theorem FillTrajectory_frame [FloorRing α] (surface : Surface) (t : List (Body α))
    (ht : t.length = 300) :
    (FillTrajectory surface t).2.length = 300 ∧
      ∀ (i : Nat) (b : Body α), t[i]? = some b →
        (FillTrajectory surface t).2[i]? =
          some (⟨b.x, b.y, 2, b.v_x, b.v_y, b.mass⟩ : Body α) := by
  rw [FillTrajectory_snd surface t ht]
  refine ⟨by rw [List.length_map]; exact ht, ?_⟩
  intro i b hb
  rw [List.getElem?_map, hb]
  rfl

/-- Witness of C17: a buffer of 300 copies of the first scenario body; its
entry 7 keeps everything but the radius, which becomes 2. -/
theorem FillTrajectory_frame_witness :
    (List.replicate 300 (scenarioA : Body ℚ)).length = 300 ∧
      (List.replicate 300 (scenarioA : Body ℚ))[7]? = some scenarioA ∧
      (FillTrajectory [] (List.replicate 300 (scenarioA : Body ℚ))).2[7]? =
        some (⟨100, 100, 2, 5, 25, 100⟩ : Body ℚ) :=
  ⟨List.length_replicate _ _, by rw [List.getElem?_replicate, if_pos (by decide)],
    (FillTrajectory_frame [] (List.replicate 300 (scenarioA : Body ℚ))
      (List.length_replicate _ _)).2 7 scenarioA
      (by rw [List.getElem?_replicate, if_pos (by decide)])⟩

/-- C9, as amended: on doubles, division by zero in `step` is possible only when
the distance computed at line 79 is zero: for every pair of bodies whose
computed distance after the position advance is not zero, every divisor `step`
evaluates is nonzero: `distance` (twice), `pow(distance, 2)` and, when the clamp
branch is taken, `pow(radius + radius2, 2)`. -/
theorem stepDivisorsDouble_nonzero [FloorRing α] (sqrt : α → α) (hs : IsSqrt sqrt)
    (body body2 : Body α)
    (hd : distanceDouble sqrt (advanceDouble body) (advanceDouble body2) ≠ 0) :
    ∀ d ∈ stepDivisorsDouble sqrt body body2, d ≠ 0 := by
  have hge := distanceDouble_ge sqrt hs _ _ hd
  intro d hmem
  simp only [stepDivisorsDouble, List.mem_append, List.mem_cons, List.mem_singleton,
    List.not_mem_nil, or_false] at hmem
  rcases hmem with (h | h | h) | h
  · rw [h]; exact hd
  · rw [h]; exact hd
  · rw [h]; exact fpow_two_ne_zero _ hge
  · split_ifs at h with hcl
    · rw [List.mem_singleton] at h
      rw [h]
      exact fpow_two_ne_zero _ (le_trans hge hcl)
    · exact absurd h (List.not_mem_nil _)

/-- Witness of C9 (amended): the concrete scenario, with the real square root;
its computed distance is not zero. -/
theorem stepDivisorsDouble_nonzero_witness :
    IsSqrt Real.sqrt ∧
      distanceDouble Real.sqrt (advanceDouble (scenarioA : Body ℝ)) (advanceDouble scenarioB) ≠ 0 ∧
      ∀ d ∈ stepDivisorsDouble Real.sqrt (scenarioA : Body ℝ) scenarioB, d ≠ 0 :=
  ⟨isSqrt_real, by rw [scenario_distanceDouble Real.sqrt isSqrt_real]; norm_num,
    stepDivisorsDouble_nonzero Real.sqrt isSqrt_real scenarioA scenarioB
      (by rw [scenario_distanceDouble Real.sqrt isSqrt_real]; norm_num)⟩

/-- Counterexample to C9 as stated: two bodies at rest at `(0, 0)` and
`(2^-600, 0)` have distinct centres after the position advance, yet on doubles
`pow(dx, 2)` underflows to 0, the distance of line 79 is 0 and `step` divides
by it. -/
theorem stepDivisorsDouble_underflow :
    ((advanceDouble (tinyGapA : Body ℝ)).x ≠ (advanceDouble (tinyGapB : Body ℝ)).x ∨
        (advanceDouble (tinyGapA : Body ℝ)).y ≠ (advanceDouble (tinyGapB : Body ℝ)).y) ∧
      fpow (fsub (advanceDouble (tinyGapA : Body ℝ)).x (advanceDouble (tinyGapB : Body ℝ)).x) 2
        = 0 ∧
      (0 : ℝ) ∈ stepDivisorsDouble Real.sqrt (tinyGapA : Body ℝ) tinyGapB := by
  obtain ⟨hA, hB, hD⟩ := tinyGap_distanceDouble
  refine ⟨Or.inl ?_, ?_, ?_⟩
  · rw [hA, hB]
    exact ne_of_lt (by positivity)
  · rw [hA, hB]
    have z4 : fsub (0 : ℝ) ((1 / 2) ^ 600) = -(1 / 2) ^ 600 :=
      (roundDouble_eq_of_neg _ 4503599627370496 (-652) (by norm_num) (by norm_num)
        (by norm_num) (by rw [abs_lt]; constructor <;> norm_num)).trans (by norm_num)
    rw [z4]
    exact roundDouble_underflow _ (sq_nonneg _) (by norm_num)
  · simp only [stepDivisorsDouble, hD]
    exact List.mem_append_left _ (List.mem_cons_self _ _)

/-- C8: on doubles the gravity velocity update of `step` does not conserve total
momentum. For the pair of the concrete scenario (centres distinct after the
move, no edge bounce) the total momentum `mass * v + mass2 * v2` before `step`
is `(550, 2250)`; after `step` it is `(550 - 15 / 2^49, 2250 + 5 / 2^46)`. -/
theorem stepDouble_momentum_changes [FloorRing α] (sqrt : α → α) (hs : IsSqrt sqrt) :
    ((advanceDouble (scenarioA : Body α)).x ≠ (advanceDouble (scenarioB : Body α)).x ∨
        (advanceDouble (scenarioA : Body α)).y ≠ (advanceDouble (scenarioB : Body α)).y) ∧
      noBounceDouble (stepGravityDouble sqrt (scenarioA : Body α) scenarioB).1 ∧
      noBounceDouble (stepGravityDouble sqrt (scenarioA : Body α) scenarioB).2 ∧
      (stepDouble sqrt (scenarioA : Body α) scenarioB).1.mass *
            (stepDouble sqrt (scenarioA : Body α) scenarioB).1.v_x +
          (stepDouble sqrt (scenarioA : Body α) scenarioB).2.mass *
            (stepDouble sqrt (scenarioA : Body α) scenarioB).2.v_x =
        (scenarioA : Body α).mass * (scenarioA : Body α).v_x +
          (scenarioB : Body α).mass * (scenarioB : Body α).v_x - 15 / 562949953421312 ∧
      (stepDouble sqrt (scenarioA : Body α) scenarioB).1.mass *
            (stepDouble sqrt (scenarioA : Body α) scenarioB).1.v_y +
          (stepDouble sqrt (scenarioA : Body α) scenarioB).2.mass *
            (stepDouble sqrt (scenarioA : Body α) scenarioB).2.v_y =
        (scenarioA : Body α).mass * (scenarioA : Body α).v_y +
          (scenarioB : Body α).mass * (scenarioB : Body α).v_y + 5 / 70368744177664 ∧
      (stepDouble sqrt (scenarioA : Body α) scenarioB).1.mass *
            (stepDouble sqrt (scenarioA : Body α) scenarioB).1.v_x +
          (stepDouble sqrt (scenarioA : Body α) scenarioB).2.mass *
            (stepDouble sqrt (scenarioA : Body α) scenarioB).2.v_x ≠
        (scenarioA : Body α).mass * (scenarioA : Body α).v_x +
          (scenarioB : Body α).mass * (scenarioB : Body α).v_x := by
  have hx : (advanceDouble (scenarioA : Body α)).x = 201 / 2 :=
    congrArg (fun p => p.1.x) (scenario_stepGravityDouble sqrt hs)
  have hx2 : (advanceDouble (scenarioB : Body α)).x = 601 / 2 :=
    congrArg (fun p => p.2.x) (scenario_stepGravityDouble sqrt hs)
  obtain ⟨hn1, hn2⟩ := scenario_noBounceDouble sqrt hs
  have hmx : (stepDouble sqrt (scenarioA : Body α) scenarioB).1.mass *
            (stepDouble sqrt (scenarioA : Body α) scenarioB).1.v_x +
          (stepDouble sqrt (scenarioA : Body α) scenarioB).2.mass *
            (stepDouble sqrt (scenarioA : Body α) scenarioB).2.v_x =
        (scenarioA : Body α).mass * (scenarioA : Body α).v_x +
          (scenarioB : Body α).mass * (scenarioB : Body α).v_x - 15 / 562949953421312 := by
    rw [scenario_stepDouble sqrt hs, scenario_stepGravityDouble sqrt hs]
    simp only [scenarioA, scenarioB]
    norm_num
  refine ⟨Or.inl ?_, hn1, hn2, hmx, ?_, ?_⟩
  · rw [hx, hx2]; norm_num
  · rw [scenario_stepDouble sqrt hs, scenario_stepGravityDouble sqrt hs]
    simp only [scenarioA, scenarioB]
    norm_num
  · rw [hmx]
    intro h
    have h15 : (15 : α) / 562949953421312 = 0 := by linarith
    norm_num at h15

/-- Witness of C8: the statement with the real square root. -/
theorem stepDouble_momentum_changes_witness :
    IsSqrt Real.sqrt ∧
      (stepDouble Real.sqrt (scenarioA : Body ℝ) scenarioB).1.mass *
            (stepDouble Real.sqrt (scenarioA : Body ℝ) scenarioB).1.v_x +
          (stepDouble Real.sqrt (scenarioA : Body ℝ) scenarioB).2.mass *
            (stepDouble Real.sqrt (scenarioA : Body ℝ) scenarioB).2.v_x ≠
        (scenarioA : Body ℝ).mass * (scenarioA : Body ℝ).v_x +
          (scenarioB : Body ℝ).mass * (scenarioB : Body ℝ).v_x :=
  ⟨isSqrt_real, (stepDouble_momentum_changes Real.sqrt isSqrt_real).2.2.2.2.2⟩

end Claims

end PlanetSim
